import Mathlib

/-!
Verification of the Gaussian-splat cluster-hierarchy builder
(`GaussianClusterBuilder.cpp` / `GaussianClusterTypes.h` of the
UEGaussianSplatting plugin).

Modelling conventions:
* IEEE `float`/`double` arithmetic is modelled by exact rational
  arithmetic (`ℚ`).  All concrete inputs used in witnesses and
  counterexamples are chosen so that every floating-point operation the
  C++ code would perform on them is exact (small integers, perfect
  squares under `sqrt`), so the rational evaluation coincides with the
  `float` evaluation there.
* `FVector3f::Dist` (Euclidean distance) is modelled by `Vec3.dist`,
  whose square root `ratSqrt` is exact on perfect rational squares and
  is some rational approximation elsewhere; every theorem below either
  does not depend on the value of `ratSqrt` at non-squares or evaluates
  it only at perfect squares.
* `int32`/`uint32` arithmetic is modelled by `ℤ`/`ℕ`.  `TArray` holds at
  most `2^31 - 1` elements (its `Num()` is `int32`), so the unsigned
  counters cannot wrap in any reachable state; the two places where the
  C++ code can actually convert a negative `int` to `uint32`
  (`RootClusterIndex = Num() - 1` on an empty array, and storing a
  negative `SplatsPerCluster` setting) use `uint32OfInt`, which performs
  the modular conversion.
* `FMath::DivideAndRoundUp` is `(a + b - 1) / b` on `int32`, whose `/`
  truncates toward zero; this is `Int.tdiv`.
-/

/-- Componentwise 3-vector of rational scalars, modelling `FVector3f`
(and `FVector`, whose extra precision is irrelevant under exact
arithmetic). -/
structure Vec3 where
  x : ℚ
  y : ℚ
  z : ℚ
deriving DecidableEq, Repr

def Vec3.zero : Vec3 := ⟨0, 0, 0⟩

def Vec3.add (a b : Vec3) : Vec3 := ⟨a.x + b.x, a.y + b.y, a.z + b.z⟩

def Vec3.sub (a b : Vec3) : Vec3 := ⟨a.x - b.x, a.y - b.y, a.z - b.z⟩

/-- Vector times scalar, `FVector3f operator*(float)`. -/
def Vec3.mulS (a : Vec3) (s : ℚ) : Vec3 := ⟨a.x * s, a.y * s, a.z * s⟩

/-- Componentwise division, used by Morton normalization. -/
def Vec3.divC (a b : Vec3) : Vec3 := ⟨a.x / b.x, a.y / b.y, a.z / b.z⟩

def Vec3.compMin (a b : Vec3) : Vec3 := ⟨min a.x b.x, min a.y b.y, min a.z b.z⟩

def Vec3.compMax (a b : Vec3) : Vec3 := ⟨max a.x b.x, max a.y b.y, max a.z b.z⟩

/-- Squared Euclidean distance. -/
def Vec3.distSq (a b : Vec3) : ℚ :=
  (a.x - b.x) ^ 2 + (a.y - b.y) ^ 2 + (a.z - b.z) ^ 2

/-- Rational square root: exact on perfect rational squares (a reduced
fraction is a square iff numerator and denominator are), and some
nonnegative rational on other inputs.  Models `sqrtf`, which is exact on
exactly representable perfect squares. -/
def ratSqrt (q : ℚ) : ℚ :=
  if q ≤ 0 then 0 else (Nat.sqrt q.num.toNat : ℚ) / (Nat.sqrt q.den : ℚ)

/-- Euclidean distance, modelling `FVector3f::Dist`. -/
def Vec3.dist (a b : Vec3) : ℚ := ratSqrt (Vec3.distSq a b)

/-- Quaternion, modelling `FQuat4f`; the builder only ever writes the
identity into it. -/
structure Quat4 where
  x : ℚ
  y : ℚ
  z : ℚ
  w : ℚ
deriving DecidableEq, Repr

def Quat4.identity : Quat4 := ⟨0, 0, 0, 1⟩

/-- UE `SMALL_NUMBER` = 1.e-8f. -/
def smallNumber : ℚ := 1 / 100000000

/-- UE `KINDA_SMALL_NUMBER` = 1.e-4f, the default tolerance of
`FVector::IsNearlyZero`. -/
def kindaSmallNumber : ℚ := 1 / 10000

/-- UE `MAX_FLT` = FLT_MAX = 2^128 - 2^104 (exactly). -/
def maxFlt : ℚ := 2 ^ 128 - 2 ^ 104

/-- GaussianSplattingConstants::SH_C0 = 0.28209479177387814f (exact
decimal of the source literal). -/
def SH_C0 : ℚ := 28209479177387814 / 100000000000000000

/-- FMath::Clamp. -/
def clampQ (v lo hi : ℚ) : ℚ := if v < lo then lo else if v < hi then v else hi

/-- FMath::DivideAndRoundUp on int32: `(Dividend + Divisor - 1) /
Divisor` with C++ truncating division. -/
def divideAndRoundUp (a b : ℤ) : ℤ := (a + b - 1).tdiv b

/-- Conversion of a C++ `int` value to `uint32` (modular). -/
def uint32OfInt (i : ℤ) : ℕ := (i % 4294967296).toNat

/-- GaussianClusterConstants::InvalidClusterID = 0xFFFFFFFF. -/
def InvalidClusterID : ℕ := 4294967295

/-- GaussianClusterConstants::RootParentID = 0xFFFFFFFF. -/
def RootParentID : ℕ := 4294967295

/-- MAX_uint32. -/
def MAXuint32 : ℕ := 4294967295

/-- FGaussianSplatData, restricted to the fields the cluster builder
reads (Position, Scale, Opacity, SH_DC; Rotation and the higher SH bands
are never read by the code under verification). -/
structure FGaussianSplatData where
  Position : Vec3 := Vec3.zero
  Scale : Vec3 := ⟨1, 1, 1⟩
  Opacity : ℚ := 1
  SH_DC : Vec3 := Vec3.zero
deriving DecidableEq, Repr

/-- FGaussianLODSplat. -/
structure FGaussianLODSplat where
  Position : Vec3 := Vec3.zero
  Rotation : Quat4 := Quat4.identity
  Scale : Vec3 := ⟨1, 1, 1⟩
  Opacity : ℚ := 1
  Color : Vec3 := ⟨1, 1, 1⟩
deriving DecidableEq, Repr

/-- FGaussianCluster. -/
structure FGaussianCluster where
  ClusterID : ℕ := InvalidClusterID
  ParentClusterID : ℕ := RootParentID
  ChildClusterIDs : List ℕ := []
  LODLevel : ℕ := 0
  BoundsMin : Vec3 := Vec3.zero
  BoundsMax : Vec3 := Vec3.zero
  BoundingSphereCenter : Vec3 := Vec3.zero
  BoundingSphereRadius : ℚ := 0
  SplatStartIndex : ℕ := 0
  SplatCount : ℕ := 0
  MaxError : ℚ := 0
  LODSplatStartIndex : ℕ := 0
  LODSplatCount : ℕ := 0
deriving DecidableEq, Repr

/-- FGaussianCluster::IsLeaf. -/
def FGaussianCluster.IsLeaf (c : FGaussianCluster) : Bool := c.ChildClusterIDs.isEmpty

/-- FGaussianCluster::IsRoot. -/
def FGaussianCluster.IsRoot (c : FGaussianCluster) : Bool := c.ParentClusterID == RootParentID

/-- FGaussianCluster::ComputeBoundingSphereFromAABB: center = AABB
midpoint, radius = distance from center to the max corner. -/
def FGaussianCluster.ComputeBoundingSphereFromAABB (c : FGaussianCluster) : FGaussianCluster :=
  let center := Vec3.mulS (Vec3.add c.BoundsMin c.BoundsMax) (1 / 2)
  { c with BoundingSphereCenter := center,
           BoundingSphereRadius := Vec3.dist center c.BoundsMax }

/-- FGaussianClusterHierarchy. -/
structure FGaussianClusterHierarchy where
  Clusters : List FGaussianCluster := []
  NumLODLevels : ℕ := 0
  SplatsPerCluster : ℕ := 128
  RootClusterIndex : ℕ := InvalidClusterID
  NumLeafClusters : ℕ := 0
  TotalSplatCount : ℕ := 0
  LODSplats : List FGaussianLODSplat := []
  TotalLODSplatCount : ℕ := 0
deriving DecidableEq, Repr

/-- FGaussianClusterHierarchy::Reset: clears everything except the
`SplatsPerCluster` build setting (which the C++ `Reset` does not touch). -/
def FGaussianClusterHierarchy.Reset (h : FGaussianClusterHierarchy) : FGaussianClusterHierarchy :=
  { h with Clusters := [], LODSplats := [], NumLODLevels := 0,
           RootClusterIndex := InvalidClusterID, NumLeafClusters := 0,
           TotalSplatCount := 0, TotalLODSplatCount := 0 }

/-- FGaussianClusterHierarchy::FindClusterByID: linear search, first
match. -/
def FGaussianClusterHierarchy.FindClusterByID (h : FGaussianClusterHierarchy) (cid : ℕ) :
    Option FGaussianCluster :=
  h.Clusters.find? (fun c => c.ClusterID == cid)

/-- FGaussianClusterBuilder::FBuildSettings.  `LODReduction` models the
`LODReductionRatio` field. -/
structure FBuildSettings where
  SplatsPerCluster : ℤ := 128
  MaxChildrenPerCluster : ℤ := 8
  bReorderSplats : Bool := true
  bGenerateLOD : Bool := true
  LODReduction : ℤ := 4
deriving DecidableEq, Repr

/-- GaussianSplattingUtils::SHDCToColor: `0.5 + SH_C0 * SHDC`
componentwise. -/
def SHDCToColor (shdc : Vec3) : Vec3 :=
  ⟨1 / 2 + SH_C0 * shdc.x, 1 / 2 + SH_C0 * shdc.y, 1 / 2 + SH_C0 * shdc.z⟩

/-- GaussianClusterUtils::EncodeMorton3D, bit-spread helper `SplitBy3`
(21-bit input, bits spread to every third position). -/
def SplitBy3 (a : ℕ) : ℕ :=
  let x0 := a &&& 0x1fffff
  let x1 := (x0 ||| (x0 <<< 32)) &&& 0x1f00000000ffff
  let x2 := (x1 ||| (x1 <<< 16)) &&& 0x1f0000ff0000ff
  let x3 := (x2 ||| (x2 <<< 8)) &&& 0x100f00f00f00f00f
  let x4 := (x3 ||| (x3 <<< 4)) &&& 0x10c30c30c30c30c3
  let x5 := (x4 ||| (x4 <<< 2)) &&& 0x1249249249249249
  x5

/-- Quantize one normalized coordinate to 21 bits:
`FMath::Clamp(static_cast<uint32>(v * MaxVal), 0u, MaxVal)`.  The C++
float-to-unsigned cast truncates toward zero; inputs are nonnegative
because positions lie inside the global bounds. -/
def quantize21 (v : ℚ) : ℕ :=
  min (Int.toNat ⌊v * 2097151⌋) 2097151

/-- GaussianClusterUtils::EncodeMorton3D. -/
def EncodeMorton3D (p bmin bmax : Vec3) : ℕ :=
  let normalized := Vec3.divC (Vec3.sub p bmin)
    (Vec3.add (Vec3.sub bmax bmin) ⟨smallNumber, smallNumber, smallNumber⟩)
  SplitBy3 (quantize21 normalized.x) |||
    (SplitBy3 (quantize21 normalized.y) <<< 1) |||
    (SplitBy3 (quantize21 normalized.z) <<< 2)

/-- FGaussianClusterBuilder::FSplatSortEntry. -/
structure FSplatSortEntry where
  MortonCode : ℕ
  OriginalIndex : ℕ
deriving DecidableEq, Repr

/-- Insert into a list sorted by Morton code.  `TArray::Sort` is an
unstable introsort over `operator<` on `MortonCode`; the relative order
of equal keys is unspecified in the contract, so any comparison sort is
a faithful model. -/
def sortEntryInsert (a : FSplatSortEntry) : List FSplatSortEntry → List FSplatSortEntry
  | [] => [a]
  | b :: rest =>
    if a.MortonCode ≤ b.MortonCode then a :: b :: rest else b :: sortEntryInsert a rest

/-- Comparison sort of the sort entries by Morton code. -/
def sortEntries : List FSplatSortEntry → List FSplatSortEntry
  | [] => []
  | a :: rest => sortEntryInsert a (sortEntries rest)

/-- FGaussianClusterBuilder::CalculateGlobalBounds: fold all positions
into an AABB (`FBox::operator+=`), then expand by 1 if the size is
nearly zero.  The box starts invalid (`ForceInit`), so the first point
initializes it; the function is only called with at least one splat. -/
def CalculateGlobalBounds (splats : List FGaussianSplatData) : Vec3 × Vec3 :=
  let box :=
    match splats.map (fun s => s.Position) with
    | [] => (Vec3.zero, Vec3.zero)
    | p :: rest =>
      rest.foldl (fun bb q => (Vec3.compMin bb.1 q, Vec3.compMax bb.2 q)) (p, p)
  let size := Vec3.sub box.2 box.1
  if |size.x| ≤ kindaSmallNumber ∧ |size.y| ≤ kindaSmallNumber ∧ |size.z| ≤ kindaSmallNumber then
    (Vec3.sub box.1 ⟨1, 1, 1⟩, Vec3.add box.2 ⟨1, 1, 1⟩)
  else box

/-- FGaussianClusterBuilder::SortSplatsByMortonCode.  Returns the
(possibly reordered) splat array and the sorted-index permutation
(identity when the array was physically reordered). -/
def SortSplatsByMortonCode (splats : List FGaussianSplatData) (bmin bmax : Vec3)
    (bReorder : Bool) : List FGaussianSplatData × List ℕ :=
  let entries := (List.range splats.length).map (fun i =>
    FSplatSortEntry.mk
      (EncodeMorton3D ((splats[i]?.getD {}).Position) bmin bmax) i)
  let sorted := sortEntries entries
  let sortedIndices := sorted.map (fun e => e.OriginalIndex)
  if bReorder then
    (sortedIndices.filterMap (fun i => splats[i]?), List.range splats.length)
  else
    (splats, sortedIndices)

/-- FGaussianClusterBuilder::CalculateClusterBounds: reset bounds, fold
the positions of the cluster's splat range, derive the sphere. -/
def CalculateClusterBounds (c : FGaussianCluster) (splats : List FGaussianSplatData) :
    FGaussianCluster :=
  let pts := ((splats.drop c.SplatStartIndex).take c.SplatCount).map (fun s => s.Position)
  let bb := pts.foldl (fun bb q => (Vec3.compMin bb.1 q, Vec3.compMax bb.2 q))
    (⟨maxFlt, maxFlt, maxFlt⟩, ⟨-maxFlt, -maxFlt, -maxFlt⟩)
  FGaussianCluster.ComputeBoundingSphereFromAABB { c with BoundsMin := bb.1, BoundsMax := bb.2 }

/-- FGaussianClusterBuilder::CreateLeafClusters: `ceil(N/K)` clusters of
up to `K` consecutive splats each.  The `int32` products and casts are
exact for the reachable sizes (`N < 2^31`, and `K ≥ 1` whenever any
cluster is created, since `DivideAndRoundUp` yields no clusters for
`K ≤ 0` and `N ≥ 2`; `K = 0` is division by zero, i.e. UB, in C++). -/
def CreateLeafClusters (splats : List FGaussianSplatData) (splatsPerCluster : ℤ) :
    List FGaussianCluster :=
  let numSplats := splats.length
  let numClusters := (divideAndRoundUp numSplats splatsPerCluster).toNat
  (List.range numClusters).map (fun clusterIdx =>
    let start := uint32OfInt (Int.ofNat clusterIdx * splatsPerCluster)
    CalculateClusterBounds
      { ClusterID := clusterIdx, ParentClusterID := RootParentID,
        ChildClusterIDs := [], LODLevel := 0,
        SplatStartIndex := start,
        SplatCount := uint32OfInt (min splatsPerCluster ((numSplats : ℤ) - (start : ℤ))),
        MaxError := 0 } splats)

/-- MakeParentCluster: the body of the per-parent loop of
`FGaussianClusterBuilder::BuildParentLevel`, for one slice of children.
The single C++ loop accumulating child IDs, bounds, splat count and
minimum start index is split into independent folds over the same
slice. -/
def MakeParentCluster (slice : List FGaussianCluster) (parentLOD : ℕ) (cid : ℕ) :
    FGaussianCluster :=
  let bb := slice.foldl
    (fun bb ch =>
      (Vec3.compMin (Vec3.compMin bb.1 ch.BoundsMin) ch.BoundsMax,
       Vec3.compMax (Vec3.compMax bb.2 ch.BoundsMin) ch.BoundsMax))
    (⟨maxFlt, maxFlt, maxFlt⟩, ⟨-maxFlt, -maxFlt, -maxFlt⟩)
  FGaussianCluster.ComputeBoundingSphereFromAABB
    { ClusterID := cid, ParentClusterID := RootParentID,
      ChildClusterIDs := slice.map (fun ch => ch.ClusterID),
      LODLevel := parentLOD,
      BoundsMin := bb.1, BoundsMax := bb.2,
      SplatStartIndex := slice.foldl (fun m ch => min m ch.SplatStartIndex) MAXuint32,
      SplatCount := slice.foldl (fun t ch => t + ch.SplatCount) 0,
      MaxError := 0 }

/-- Assignment of `ParentClusterID` to every child of the level, as done
inside the per-parent loop of `BuildParentLevel`: the child at index `j`
belongs to parent `j / M` (for `M ≥ 1` every child is covered; for
`M ≤ 0` no parents are created and no child is touched). -/
def setParentIDsFrom (nextID mnat numParents : ℕ) : ℕ → List FGaussianCluster → List FGaussianCluster
  | _, [] => []
  | j, c :: rest =>
    (if j / mnat < numParents then { c with ParentClusterID := nextID + j / mnat } else c) ::
      setParentIDsFrom nextID mnat numParents (j + 1) rest

/-- FGaussianClusterBuilder::BuildParentLevel: partitions the child
level into `ceil(n/M)` contiguous slices of at most `M`, creates one
parent per slice (sequential IDs starting at `nextID`), and points the
children at their parents.  Returns (updated children, parents). -/
def BuildParentLevel (children : List FGaussianCluster) (maxChildren : ℤ)
    (parentLOD : ℕ) (nextID : ℕ) : List FGaussianCluster × List FGaussianCluster :=
  let numChildren := children.length
  let numParents := (divideAndRoundUp numChildren maxChildren).toNat
  let parents := (List.range numParents).map (fun pIdx =>
    MakeParentCluster ((children.drop (pIdx * maxChildren.toNat)).take maxChildren.toNat)
      parentLOD (nextID + pIdx))
  (setParentIDsFrom nextID maxChildren.toNat numParents 0 children, parents)

/-- Update of the stored copies in `AllClusters` with a child's new
`ParentClusterID` (lines 68-79 of `BuildClusterHierarchy`): find the
first stored cluster with the matching ID and overwrite its parent
pointer. -/
def setFirstParentID : List FGaussianCluster → ℕ → ℕ → List FGaussianCluster
  | [], _, _ => []
  | c :: rest, cid, pid =>
    if c.ClusterID = cid then { c with ParentClusterID := pid } :: rest
    else c :: setFirstParentID rest cid pid

/-- Propagate all updated parent pointers of the current level into the
accumulated cluster array. -/
def updateParentIDs (acc : List FGaussianCluster) (upd : List FGaussianCluster) :
    List FGaussianCluster :=
  upd.foldl (fun a u => setFirstParentID a u.ClusterID u.ParentClusterID) acc

/-- The bottom-up level loop of `BuildClusterHierarchy` (step 4): build
parent levels until a single cluster remains.  The C++ `while` loop does
not terminate when `maxChildren = 1` and more than one cluster exists
(each level reproduces itself); the explicit `fuel` models this — the
caller passes fuel that provably suffices for every terminating case
(`maxChildren ≥ 2`, where each level strictly shrinks, and
`maxChildren ≤ 0`, where the level empties).  Returns (accumulated
clusters, final LOD level). -/
def BuildLevels : ℕ → List FGaussianCluster → ℤ → ℕ → ℕ → List FGaussianCluster →
    List FGaussianCluster × ℕ
  | 0, _, _, lod, _, acc => (acc, lod)
  | Nat.succ fuel, cur, maxChildren, lod, nextID, acc =>
    if cur.length > 1 then
      let pr := BuildParentLevel cur maxChildren (lod + 1) nextID
      BuildLevels fuel pr.2 maxChildren (lod + 1) (nextID + pr.2.length)
        (updateParentIDs acc pr.1 ++ pr.2)
    else (acc, lod)

/-- Error formula of `FGaussianClusterBuilder::CalculateClusterError`:
maximum over the children (looked up by ID, missing IDs skipped, running
maximum started at 0) of (distance between sphere centers + child
radius + child MaxError), minus the parent's sphere radius, floored at
0. -/
def ErrTermFold (p : FGaussianCluster) (all : List FGaussianCluster) : ℚ :=
  p.ChildClusterIDs.foldl
    (fun m cid =>
      match all.find? (fun c => c.ClusterID == cid) with
      | some child =>
        max m (Vec3.dist p.BoundingSphereCenter child.BoundingSphereCenter +
          child.BoundingSphereRadius + child.MaxError)
      | none => m) 0

/-- Error value: the running maximum above, minus the parent's sphere
radius, floored at 0. -/
def ErrorFormula (p : FGaussianCluster) (all : List FGaussianCluster) : ℚ :=
  max 0 (ErrTermFold p all - p.BoundingSphereRadius)

/-- FGaussianClusterBuilder::CalculateClusterError. -/
def CalculateClusterError (p : FGaussianCluster) (all : List FGaussianCluster) :
    FGaussianCluster :=
  { p with MaxError := ErrorFormula p all }

/-- Processing of the cluster at index `i` by step 5 of
`BuildClusterHierarchy`: non-leaf clusters get their error recomputed in
place against the current state of the array. -/
def CalcErrStep (cur : List FGaussianCluster) (i : ℕ) : List FGaussianCluster :=
  match cur[i]? with
  | some c => if c.IsLeaf then cur else cur.set i (CalculateClusterError c cur)
  | none => cur

/-- Step 5 of `BuildClusterHierarchy`: walk the cluster array in order
and recompute `MaxError` of every non-leaf cluster in place; each
lookup sees the updates made so far. -/
def CalculateAllErrors (all : List FGaussianCluster) : List FGaussianCluster :=
  (List.range all.length).foldl CalcErrStep all

/-- FGaussianClusterBuilder::MergeGaussians: merge a contiguous run of
raw splats into one LOD splat.  Degenerate runs yield the
default-constructed result.  The C++ loops over the run computing the
weighted position/color, weighted scale and positional min/max, and the
combined transparency are modelled as independent folds over the same
run. -/
def MergeGaussians (splats : List FGaussianSplatData) (startIndex count : ℤ) :
    FGaussianLODSplat :=
  if count ≤ 0 ∨ startIndex < 0 ∨ (splats.length : ℤ) ≤ startIndex then {}
  else
    let s := startIndex.toNat
    let c := (min count ((splats.length : ℤ) - startIndex)).toNat
    let run := (splats.drop s).take c
    let totalWeight0 := run.foldl (fun acc sp => acc + sp.Opacity) 0
    let totalWeight := if totalWeight0 < smallNumber then 1 else totalWeight0
    let wpos := run.foldl
      (fun acc sp => Vec3.add acc (Vec3.mulS sp.Position (sp.Opacity / totalWeight))) Vec3.zero
    let wcol := run.foldl
      (fun acc sp => Vec3.add acc (Vec3.mulS (SHDCToColor sp.SH_DC) (sp.Opacity / totalWeight)))
      Vec3.zero
    let avgScale := run.foldl
      (fun acc sp => Vec3.add acc (Vec3.mulS sp.Scale (sp.Opacity / totalWeight))) Vec3.zero
    let minPos := run.foldl (fun acc sp => Vec3.compMin acc sp.Position)
      ⟨maxFlt, maxFlt, maxFlt⟩
    let maxPos := run.foldl (fun acc sp => Vec3.compMax acc sp.Position)
      ⟨-maxFlt, -maxFlt, -maxFlt⟩
    let spread := Vec3.mulS (Vec3.sub maxPos minPos) (1 / 2)
    let transparency := run.foldl (fun acc sp => acc * (1 - clampQ sp.Opacity 0 1)) 1
    { Position := wpos, Color := wcol,
      Scale := Vec3.add avgScale (Vec3.mulS spread (1 / 2)),
      Rotation := Quat4.identity,
      Opacity := clampQ (1 - transparency) 0 1 }

/-- FGaussianClusterBuilder::MergeLODSplats: like `MergeGaussians`, but
over already-merged LOD splats, whose stored flat color is used
directly. -/
def MergeLODSplats (lodSplats : List FGaussianLODSplat) (startIndex count : ℤ) :
    FGaussianLODSplat :=
  if count ≤ 0 ∨ startIndex < 0 ∨ (lodSplats.length : ℤ) ≤ startIndex then {}
  else
    let s := startIndex.toNat
    let c := (min count ((lodSplats.length : ℤ) - startIndex)).toNat
    let run := (lodSplats.drop s).take c
    let totalWeight0 := run.foldl (fun acc sp => acc + sp.Opacity) 0
    let totalWeight := if totalWeight0 < smallNumber then 1 else totalWeight0
    let wpos := run.foldl
      (fun acc sp => Vec3.add acc (Vec3.mulS sp.Position (sp.Opacity / totalWeight))) Vec3.zero
    let wcol := run.foldl
      (fun acc sp => Vec3.add acc (Vec3.mulS sp.Color (sp.Opacity / totalWeight))) Vec3.zero
    let avgScale := run.foldl
      (fun acc sp => Vec3.add acc (Vec3.mulS sp.Scale (sp.Opacity / totalWeight))) Vec3.zero
    let minPos := run.foldl (fun acc sp => Vec3.compMin acc sp.Position)
      ⟨maxFlt, maxFlt, maxFlt⟩
    let maxPos := run.foldl (fun acc sp => Vec3.compMax acc sp.Position)
      ⟨-maxFlt, -maxFlt, -maxFlt⟩
    let spread := Vec3.mulS (Vec3.sub maxPos minPos) (1 / 2)
    let transparency := run.foldl (fun acc sp => acc * (1 - clampQ sp.Opacity 0 1)) 1
    { Position := wpos, Color := wcol,
      Scale := Vec3.add avgScale (Vec3.mulS spread (1 / 2)),
      Rotation := Quat4.identity,
      Opacity := clampQ (1 - transparency) 0 1 }

/-- State of `GenerateLODSplats`: current cluster array, LOD splat array
built so far, and `NextLODSplatIndex`. -/
abbrev LODGenState :=
  List FGaussianCluster × List FGaussianLODSplat × ℕ

/-- Processing of one cluster (by index) inside `GenerateLODSplats`:
skip clusters of other levels; at level 1 merge the cluster's raw splat
range in groups of `ratio`; at higher levels gather the children's
already-generated LOD splats and merge those in groups of `ratio`.  The
cluster's `LODSplatStartIndex` is recorded before merging; a non-level-1
cluster that gathers no child LOD splats keeps its old `LODSplatCount`. -/
def ProcessClusterLOD (splats : List FGaussianSplatData) (ratio : ℤ) (level : ℕ)
    (st : LODGenState) (i : ℕ) : LODGenState :=
  match st.1[i]? with
  | none => st
  | some c =>
    if c.LODLevel ≠ level then st
    else
      let lods := st.2.1
      let next := st.2.2
      if level = 1 then
        let numLOD := (max 1 (divideAndRoundUp (c.SplatCount : ℤ) ratio)).toNat
        let inner := (List.range numLOD).foldl
          (fun s2 k =>
            let srcStart : ℤ := (c.SplatStartIndex : ℤ) + (k : ℤ) * ratio
            let srcCount : ℤ :=
              min ratio (((c.SplatStartIndex : ℤ) + (c.SplatCount : ℤ)) - srcStart)
            if 0 < srcCount then (s2.1 ++ [MergeGaussians splats srcStart srcCount], s2.2 + 1)
            else s2)
          (lods, next)
        (st.1.set i { c with LODSplatStartIndex := next, LODSplatCount := inner.2 - next },
         inner.1, inner.2)
      else
        let childLods := c.ChildClusterIDs.foldl
          (fun acc cid =>
            match st.1.find? (fun x => x.ClusterID == cid) with
            | some child =>
              if 0 < child.LODSplatCount then
                acc ++ (List.range child.LODSplatCount).filterMap
                  (fun j => lods.get? (child.LODSplatStartIndex + j))
              else acc
            | none => acc) []
        if childLods.length = 0 then
          (st.1.set i { c with LODSplatStartIndex := next }, lods, next)
        else
          let numLOD := (max 1 (divideAndRoundUp (childLods.length : ℤ) ratio)).toNat
          let inner := (List.range numLOD).foldl
            (fun s2 k =>
              let srcStart : ℤ := (k : ℤ) * ratio
              let srcCount : ℤ := min ratio ((childLods.length : ℤ) - srcStart)
              if 0 < srcCount then
                (s2.1 ++ [MergeLODSplats childLods srcStart srcCount], s2.2 + 1)
              else s2)
            (lods, next)
          (st.1.set i { c with LODSplatStartIndex := next, LODSplatCount := inner.2 - next },
           inner.1, inner.2)

/-- Body of `FGaussianClusterBuilder::GenerateLODSplats` after ratio
normalization: clear the LOD splat array, then for each LOD level 1 ..
`NumLODLevels` (inclusive, as in the C++ loop bound) process every
cluster of that level in array order. -/
def GenerateLODSplatsCore (splats : List FGaussianSplatData)
    (hier : FGaussianClusterHierarchy) (ratio : ℤ) : FGaussianClusterHierarchy :=
  let final := ((List.range hier.NumLODLevels).map (fun l => l + 1)).foldl
    (fun st level => (List.range st.1.length).foldl (ProcessClusterLOD splats ratio level) st)
    (hier.Clusters, ([] : List FGaussianLODSplat), 0)
  { hier with Clusters := final.1, LODSplats := final.2.1,
              TotalLODSplatCount := final.2.1.length }

/-- FGaussianClusterBuilder::GenerateLODSplats: a reduction ratio below
1 is silently replaced by the default 4 before any use. -/
def GenerateLODSplats (splats : List FGaussianSplatData)
    (hier : FGaussianClusterHierarchy) (reductionRatioIn : ℤ) : FGaussianClusterHierarchy :=
  let ratio := if reductionRatioIn < 1 then 4 else reductionRatioIn
  GenerateLODSplatsCore splats hier ratio

/-- FGaussianClusterBuilder::BuildClusterHierarchy.  Returns (success,
splat array after the optional in-place reorder, output hierarchy); the
C++ communicates the last two through reference parameters.  The level
loop gets fuel `splats.length`, which suffices for every terminating
configuration (see `BuildLevels`). -/
def BuildClusterHierarchy (splats : List FGaussianSplatData) (settings : FBuildSettings)
    (prior : FGaussianClusterHierarchy) :
    Bool × List FGaussianSplatData × FGaussianClusterHierarchy :=
  let h0 := FGaussianClusterHierarchy.Reset prior
  if splats.length = 0 then (false, splats, h0)
  else
    let h1 := { h0 with SplatsPerCluster := uint32OfInt settings.SplatsPerCluster,
                        TotalSplatCount := splats.length }
    let gb := CalculateGlobalBounds splats
    let sortRes := SortSplatsByMortonCode splats gb.1 gb.2 settings.bReorderSplats
    let splats' := sortRes.1
    let leaves := CreateLeafClusters splats' settings.SplatsPerCluster
    let h2 := { h1 with NumLeafClusters := leaves.length }
    let bl := BuildLevels splats.length leaves settings.MaxChildrenPerCluster 0
      leaves.length leaves
    let allClusters := CalculateAllErrors bl.1
    let h3 := { h2 with Clusters := allClusters, NumLODLevels := bl.2 + 1,
                        RootClusterIndex := uint32OfInt ((allClusters.length : ℤ) - 1) }
    let h4 := if settings.bGenerateLOD ∧ 1 < h3.NumLODLevels then
        GenerateLODSplats splats' h3 settings.LODReduction
      else h3
    (true, splats', h4)

/-! The build invariant: throughout the bottom-up level loop, the
accumulated cluster array is ID-indexed (cluster `i` sits at index `i`),
children precede parents, errors are still zero, splat starts stay below
the splat count, parent ranges aggregate their children's ranges, and
the current level is exactly the tail of the accumulated array. -/

/-- SplatCount of the cluster stored at index `i` (0 when out of range). -/
def SplatCountAt (l : List FGaussianCluster) (i : ℕ) : ℕ :=
  ((l[i]?).map (fun c => c.SplatCount)).getD 0

/-- SplatStartIndex of the cluster stored at index `i` (0 when out of
range). -/
def SplatStartAt (l : List FGaussianCluster) (i : ℕ) : ℕ :=
  ((l[i]?).map (fun c => c.SplatStartIndex)).getD 0

structure BuildInv (N : ℕ) (acc cur : List FGaussianCluster) (nextID : ℕ) : Prop where
  nextEq : nextID = acc.length
  idIdx : ∀ (i : ℕ) (h : i < acc.length), (acc[i]).ClusterID = i
  tail : ∃ front, acc = front ++ cur
  childLt : ∀ c ∈ acc, ∀ cid ∈ c.ChildClusterIDs, cid < c.ClusterID
  err0 : ∀ c ∈ acc, c.MaxError = 0
  startLt : ∀ c ∈ acc, c.SplatStartIndex < N
  agg : ∀ c ∈ acc, c.ChildClusterIDs ≠ [] →
    c.SplatCount = (c.ChildClusterIDs.map (fun cid => SplatCountAt acc cid)).sum ∧
    (∀ cid ∈ c.ChildClusterIDs, c.SplatStartIndex ≤ SplatStartAt acc cid) ∧
    (∃ cid ∈ c.ChildClusterIDs, SplatStartAt acc cid = c.SplatStartIndex)

/-! Analysis of the error pass: entries are only modified at their own
index and only in `MaxError`, indices are processed in increasing order,
so each error computation reads only final child values. -/

/-- Prefix of the error pass: only the first `k` indices processed. -/
def CalcUpTo (all : List FGaussianCluster) (k : ℕ) : List FGaussianCluster :=
  (List.range k).foldl CalcErrStep all

/-- Forgetting `MaxError`, the only field the error pass writes. -/
def StripErr (c : FGaussianCluster) : FGaussianCluster := { c with MaxError := 0 }

/-! Structural preservation of LOD generation: it writes only the
`LODSplatStartIndex` / `LODSplatCount` fields of clusters (plus the
hierarchy's LOD splat array and count). -/

/-- Forgetting the two per-cluster LOD range fields. -/
def StripLOD (c : FGaussianCluster) : FGaussianCluster :=
  { c with LODSplatStartIndex := 0, LODSplatCount := 0 }

def mkSplat (a b c : ℚ) : FGaussianSplatData := { Position := ⟨a, b, c⟩ }

/-- Six splats whose exact coordinates make every distance the builder
takes a square root of a perfect square, so the rational model computes
exactly what float code computes. -/
def splats6 : List FGaussianSplatData :=
  [mkSplat 12 16 0, mkSplat 18 16 0, mkSplat 12 16 0, mkSplat 12 24 0,
   mkSplat 0 0 0, mkSplat 30 40 0]

/-- Two splats per leaf, two children per parent, no reorder, no LOD. -/
def settings6 : FBuildSettings :=
  { SplatsPerCluster := 2, MaxChildrenPerCluster := 2,
    bReorderSplats := false, bGenerateLOD := false, LODReduction := 4 }

/-- Two splats, used as the non-degenerate input of the invalid-settings
run. -/
def pairSplats : List FGaussianSplatData := [mkSplat 0 0 0, mkSplat 1 1 1]

/-- Settings with an invalid (negative) leaf size. -/
def settingsBad : FBuildSettings :=
  { SplatsPerCluster := -1, MaxChildrenPerCluster := 8,
    bReorderSplats := false, bGenerateLOD := false, LODReduction := 4 }

/-- Tiny two-splat input for the witnesses that need a full build: one
splat per leaf gives two leaves and one root, all coordinates exact. -/
def twoSplats : List FGaussianSplatData := [mkSplat 0 0 0, mkSplat 2 0 0]

def tinySettings : FBuildSettings :=
  { SplatsPerCluster := 1, MaxChildrenPerCluster := 2,
    bReorderSplats := false, bGenerateLOD := false, LODReduction := 4 }

/-- One splat of opacity 0: its merge run has total weight below
SMALL_NUMBER. -/
def zeroSplatList : List FGaussianSplatData := [{ Position := ⟨5, 0, 0⟩, Opacity := 0 }]

/-- One splat of opacity 1/2: its merge run is not in the fallback. -/
def halfSplatList : List FGaussianSplatData := [{ Position := ⟨1, 2, 3⟩, Opacity := 1 / 2 }]

/-- The cluster array of the two-splat build, evaluated. -/
def tinyRoot : FGaussianCluster :=
  { ClusterID := 2, ParentClusterID := 4294967295, ChildClusterIDs := [0, 1], LODLevel := 1,
    BoundsMin := ⟨0, 0, 0⟩, BoundsMax := ⟨2, 0, 0⟩,
    BoundingSphereCenter := ⟨1, 0, 0⟩, BoundingSphereRadius := 1,
    SplatStartIndex := 0, SplatCount := 2, MaxError := 0,
    LODSplatStartIndex := 0, LODSplatCount := 0 }

def tinyClusters : List FGaussianCluster :=
  [{ ClusterID := 0, ParentClusterID := 2, ChildClusterIDs := [], LODLevel := 0,
     BoundsMin := ⟨0, 0, 0⟩, BoundsMax := ⟨0, 0, 0⟩,
     BoundingSphereCenter := ⟨0, 0, 0⟩, BoundingSphereRadius := 0,
     SplatStartIndex := 0, SplatCount := 1, MaxError := 0,
     LODSplatStartIndex := 0, LODSplatCount := 0 },
   { ClusterID := 1, ParentClusterID := 2, ChildClusterIDs := [], LODLevel := 0,
     BoundsMin := ⟨2, 0, 0⟩, BoundsMax := ⟨2, 0, 0⟩,
     BoundingSphereCenter := ⟨2, 0, 0⟩, BoundingSphereRadius := 0,
     SplatStartIndex := 1, SplatCount := 1, MaxError := 0,
     LODSplatStartIndex := 0, LODSplatCount := 0 },
   tinyRoot]

/-! Generic list helpers used by the hierarchy invariants. -/

/-- Setting an index to the value it already holds is the identity. -/
theorem list_set_self_of_getElem? {α : Type} {l : List α} {i : ℕ} {a : α}
    (h : l[i]? = some a) : l.set i a = l := by
  induction l generalizing i with
  | nil => simp at h
  | cons x xs ih =>
    cases i with
    | zero => simp at h; simp [h]
    | succ j => simp at h; simp [List.set, ih h]

/-- Folding `min` never exceeds the initial value. -/
theorem foldl_min_le_init (l : List ℕ) (init : ℕ) : l.foldl min init ≤ init := by
  induction l generalizing init with
  | nil => simp
  | cons x xs ih => exact le_trans (ih (min init x)) (min_le_left init x)

/-- Folding `min` is a lower bound of every list element. -/
theorem foldl_min_le_mem {l : List ℕ} {x : ℕ} (hx : x ∈ l) (init : ℕ) :
    l.foldl min init ≤ x := by
  induction l generalizing init with
  | nil => simp at hx
  | cons y ys ih =>
    rcases List.mem_cons.mp hx with h | h
    · subst h
      exact le_trans (foldl_min_le_init ys (min init x)) (min_le_right init x)
    · exact ih h (min init y)

/-- Folding `min` hits either the initial value or a list element. -/
theorem foldl_min_mem_or_init (l : List ℕ) (init : ℕ) :
    l.foldl min init = init ∨ l.foldl min init ∈ l := by
  induction l generalizing init with
  | nil => simp
  | cons x xs ih =>
    rcases ih (min init x) with h | h
    · rcases Nat.le_total init x with hle | hle
      · left; simpa [min_eq_left hle] using h
      · right; simp only [List.foldl_cons]; rw [h, min_eq_right hle]; exact List.mem_cons_self x xs
    · right; exact List.mem_cons_of_mem x h

/-- Fold congruence: pointwise equal step functions fold equally. -/
theorem foldl_congr_mem {α β : Type} {l : List α} {f g : β → α → β} {init : β}
    (h : ∀ acc x, x ∈ l → f acc x = g acc x) : l.foldl f init = l.foldl g init := by
  induction l generalizing init with
  | nil => rfl
  | cons x xs ih =>
    simp only [List.foldl_cons]
    rw [h init x (List.mem_cons_self x xs)]
    exact ih (fun acc y hy => h acc y (List.mem_cons_of_mem x hy))

/-- Fold invariance: a property preserved by every step holds of the
fold. -/
theorem foldl_invariant {α β : Type} (P : β → Prop) {f : β → α → β} {l : List α} {init : β}
    (h0 : P init) (hstep : ∀ st x, P st → P (f st x)) : P (l.foldl f init) := by
  induction l generalizing init with
  | nil => exact h0
  | cons x xs ih => exact ih (hstep init x h0)

/-- Accumulating sums with `foldl` equals the mapped sum. -/
theorem foldl_add_eq_sum (l : List FGaussianCluster) (init : ℕ) :
    l.foldl (fun t ch => t + ch.SplatCount) init =
      init + (l.map (fun ch => ch.SplatCount)).sum := by
  induction l generalizing init with
  | nil => simp
  | cons x xs ih => simp [ih, Nat.add_assoc]

/-- A `filterMap` whose function is `some` on every element is a `map`. -/
theorem filterMap_length_of_forall_some {α β : Type} {f : α → Option β} {l : List α}
    (h : ∀ x ∈ l, ∃ y, f x = some y) : (l.filterMap f).length = l.length := by
  induction l with
  | nil => rfl
  | cons x xs ih =>
    rcases h x (List.mem_cons_self x xs) with ⟨y, hy⟩
    simp only [List.filterMap_cons, hy, List.length_cons]
    rw [ih (fun z hz => h z (List.mem_cons_of_mem x hz))]

/-! Facts about the Morton sort: it permutes, so lengths and membership
are preserved. -/

theorem sortEntryInsert_length (a : FSplatSortEntry) (l : List FSplatSortEntry) :
    (sortEntryInsert a l).length = l.length + 1 := by
  induction l with
  | nil => rfl
  | cons b rest ih =>
    by_cases h : a.MortonCode ≤ b.MortonCode
    · simp [sortEntryInsert, h]
    · simp [sortEntryInsert, h, ih]

theorem sortEntries_length (l : List FSplatSortEntry) :
    (sortEntries l).length = l.length := by
  induction l with
  | nil => rfl
  | cons a rest ih => simp [sortEntries, sortEntryInsert_length, ih]

theorem mem_sortEntryInsert {x a : FSplatSortEntry} {l : List FSplatSortEntry}
    (h : x ∈ sortEntryInsert a l) : x = a ∨ x ∈ l := by
  induction l with
  | nil => simpa [sortEntryInsert] using h
  | cons b rest ih =>
    by_cases hab : a.MortonCode ≤ b.MortonCode
    · simpa [sortEntryInsert, hab] using h
    · simp only [sortEntryInsert, hab, if_false, List.mem_cons] at h
      rcases h with h | h
      · exact Or.inr (by simp [h])
      · rcases ih h with h | h
        · exact Or.inl h
        · exact Or.inr (List.mem_cons_of_mem b h)

theorem mem_sortEntries {x : FSplatSortEntry} {l : List FSplatSortEntry}
    (h : x ∈ sortEntries l) : x ∈ l := by
  induction l with
  | nil => simp [sortEntries] at h
  | cons a rest ih =>
    rcases mem_sortEntryInsert h with h | h
    · simp [h]
    · exact List.mem_cons_of_mem a (ih h)

/-- The sort step preserves the number of splats. -/
theorem SortSplatsByMortonCode_length (splats : List FGaussianSplatData)
    (bmin bmax : Vec3) (b : Bool) :
    (SortSplatsByMortonCode splats bmin bmax b).1.length = splats.length := by
  cases b with
  | false => rfl
  | true =>
    simp only [SortSplatsByMortonCode, if_true]
    rw [filterMap_length_of_forall_some, List.length_map, sortEntries_length, List.length_map,
      List.length_range]
    intro i hi
    simp only [List.mem_map] at hi
    rcases hi with ⟨e, he, rfl⟩
    have he2 := mem_sortEntries he
    simp only [List.mem_map] at he2
    rcases he2 with ⟨j, hj, rfl⟩
    simp only [List.mem_range] at hj
    exact ⟨_, List.getElem?_eq_getElem hj⟩

/-! Characterization of the linear ID search and the in-place parent
pointer updates on an array whose cluster at index `i` has ID
`off + i`. -/

/-- Linear search by ID over an array whose IDs are index-aligned with
offset `off` is indexing. -/
theorem find?_byID_offset (l : List FGaussianCluster) (off cid : ℕ)
    (hid : ∀ (i : ℕ) (h : i < l.length), (l[i]).ClusterID = off + i)
    (hle : off ≤ cid) :
    l.find? (fun c => c.ClusterID == cid) = l[cid - off]? := by
  induction l generalizing off with
  | nil => simp
  | cons c rest ih =>
    have hc : c.ClusterID = off := by
      have := hid 0 (by simp)
      simpa using this
    by_cases heq : cid = off
    · subst heq
      simp [List.find?_cons, hc]
    · have hlt : off < cid := lt_of_le_of_ne hle (fun h => heq h.symm)
      have hne : (c.ClusterID == cid) = false := by
        simp [hc]; omega
      rw [List.find?_cons, hne]
      have hrest : ∀ (i : ℕ) (h : i < rest.length), (rest[i]).ClusterID = (off + 1) + i := by
        intro i h
        have := hid (i + 1) (by simpa using Nat.succ_lt_succ h)
        simpa [Nat.add_comm, Nat.add_assoc, Nat.add_left_comm] using this
      rw [ih (off + 1) hrest hlt]
      have h1 : cid - off = (cid - (off + 1)) + 1 := by omega
      rw [h1]
      simp

/-- Special case: IDs equal to indices. -/
theorem find?_byID (l : List FGaussianCluster) (cid : ℕ)
    (hid : ∀ (i : ℕ) (h : i < l.length), (l[i]).ClusterID = i) :
    l.find? (fun c => c.ClusterID == cid) = l[cid]? := by
  have := find?_byID_offset l 0 cid (by simpa using hid) (Nat.zero_le cid)
  simpa using this

/-! Characterization of `setFirstParentID` / `updateParentIDs`: on an
array whose stored IDs are index-aligned, the linear search hits exactly
the stored copy of the updated child, so the sync turns the stored
prefix-plus-level into prefix-plus-updated-level. -/

theorem setFirstParentID_append_no_match (front l : List FGaussianCluster) (cid pid : ℕ)
    (h : ∀ x ∈ front, x.ClusterID ≠ cid) :
    setFirstParentID (front ++ l) cid pid = front ++ setFirstParentID l cid pid := by
  induction front with
  | nil => rfl
  | cons c rest ih =>
    have hc : c.ClusterID ≠ cid := h c (List.mem_cons_self c rest)
    simp only [List.cons_append, setFirstParentID, if_neg hc]
    exact congrArg (fun t => c :: t) (ih (fun x hx => h x (List.mem_cons_of_mem c hx)))

theorem setParentIDsFrom_length (nid m np : ℕ) (j : ℕ) (l : List FGaussianCluster) :
    (setParentIDsFrom nid m np j l).length = l.length := by
  induction l generalizing j with
  | nil => rfl
  | cons c rest ih => simp [setParentIDsFrom, ih]

theorem setParentIDsFrom_getElem? (nid m np : ℕ) (j k : ℕ) (l : List FGaussianCluster) :
    (setParentIDsFrom nid m np j l)[k]? = (l[k]?).map
      (fun c => if (j + k) / m < np then { c with ParentClusterID := nid + (j + k) / m }
        else c) := by
  induction l generalizing j k with
  | nil => simp [setParentIDsFrom]
  | cons c rest ih =>
    cases k with
    | zero => simp [setParentIDsFrom]
    | succ k' =>
      simp only [setParentIDsFrom, List.getElem?_cons_succ]
      rw [ih (j + 1) k']
      have harith : j + 1 + k' = j + (k' + 1) := by omega
      rw [harith]

theorem updateParentIDs_eq (us : List FGaussianCluster) :
    ∀ (front cur : List FGaussianCluster),
    (∀ x ∈ front, x.ClusterID < front.length) →
    (∀ (j : ℕ) (h : j < cur.length), (cur[j]).ClusterID = front.length + j) →
    us.length = cur.length →
    (∀ (j : ℕ) (h : j < us.length) (h' : j < cur.length),
      us[j] = { cur[j] with ParentClusterID := (us[j]).ParentClusterID }) →
    updateParentIDs (front ++ cur) us = front ++ us := by
  induction us with
  | nil =>
    intro front cur _ _ hlen _
    have : cur = [] := List.eq_nil_of_length_eq_zero hlen.symm
    subst this
    simp [updateParentIDs]
  | cons u us' ih =>
    intro front cur hfront hcur hlen hdiff
    cases cur with
    | nil => simp at hlen
    | cons c cur' =>
      have hu : u = { c with ParentClusterID := u.ParentClusterID } := by
        have := hdiff 0 (by simp) (by simp)
        simpa using this
      have huid : u.ClusterID = front.length := by
        rw [hu]
        have := hcur 0 (by simp)
        simpa using this
      have hstep : setFirstParentID (front ++ c :: cur') u.ClusterID u.ParentClusterID =
          (front ++ [u]) ++ cur' := by
        rw [setFirstParentID_append_no_match front (c :: cur') u.ClusterID u.ParentClusterID
          (fun x hx => by have := hfront x hx; omega)]
        have hcid : c.ClusterID = u.ClusterID := by
          rw [huid]
          have := hcur 0 (by simp)
          simpa using this
        simp only [setFirstParentID]
        rw [if_pos hcid, ← hu]
        simp
      show updateParentIDs (front ++ c :: cur') (u :: us') = front ++ u :: us'
      unfold updateParentIDs
      simp only [List.foldl_cons]
      rw [hstep]
      have hres := ih (front ++ [u]) cur'
        (by
          intro x hx
          simp only [List.mem_append, List.mem_singleton] at hx
          simp only [List.length_append, List.length_singleton]
          rcases hx with hx | hx
          · have := hfront x hx; omega
          · subst hx
            rw [hu]
            simp only [List.length_append, List.length_singleton]
            have := hcur 0 (by simp)
            simp only [List.getElem_cons_zero] at this
            simpa using Nat.lt_succ_of_le (le_of_eq this))
        (by
          intro j h
          have := hcur (j + 1) (by simpa using Nat.succ_lt_succ h)
          simp only [List.getElem_cons_succ] at this
          simp only [List.length_append, List.length_singleton]
          omega)
        (by simpa using hlen)
        (by
          intro j h h'
          have := hdiff (j + 1) (by simpa using Nat.succ_lt_succ h)
            (by simpa using Nat.succ_lt_succ h')
          simpa using this)
      show updateParentIDs ((front ++ [u]) ++ cur') us' = front ++ u :: us'
      rw [hres]
      simp

/-! Projection lemmas: bounds/sphere recomputation touches no
bookkeeping field, and the constructed leaf and parent clusters carry
the stated IDs, links and splat ranges. -/

theorem sphere_preserves_ClusterID (c : FGaussianCluster) :
    (c.ComputeBoundingSphereFromAABB).ClusterID = c.ClusterID := rfl

theorem sphere_preserves_fields (c : FGaussianCluster) :
    (c.ComputeBoundingSphereFromAABB).ClusterID = c.ClusterID ∧
    (c.ComputeBoundingSphereFromAABB).ParentClusterID = c.ParentClusterID ∧
    (c.ComputeBoundingSphereFromAABB).ChildClusterIDs = c.ChildClusterIDs ∧
    (c.ComputeBoundingSphereFromAABB).LODLevel = c.LODLevel ∧
    (c.ComputeBoundingSphereFromAABB).SplatStartIndex = c.SplatStartIndex ∧
    (c.ComputeBoundingSphereFromAABB).SplatCount = c.SplatCount ∧
    (c.ComputeBoundingSphereFromAABB).MaxError = c.MaxError :=
  ⟨rfl, rfl, rfl, rfl, rfl, rfl, rfl⟩

theorem CreateLeafClusters_length (splats : List FGaussianSplatData) (k : ℤ) :
    (CreateLeafClusters splats k).length = (divideAndRoundUp splats.length k).toNat := by
  simp [CreateLeafClusters]

theorem CreateLeafClusters_getElem (splats : List FGaussianSplatData) (k : ℤ) (i : ℕ)
    (h : i < (CreateLeafClusters splats k).length) :
    (CreateLeafClusters splats k)[i] =
      CalculateClusterBounds
        { ClusterID := i, ParentClusterID := RootParentID,
          ChildClusterIDs := [], LODLevel := 0,
          SplatStartIndex := uint32OfInt ((i : ℤ) * k),
          SplatCount := uint32OfInt (min k ((splats.length : ℤ) -
            (uint32OfInt ((i : ℤ) * k) : ℤ))),
          MaxError := 0 } splats := by
  have h' : i < (divideAndRoundUp splats.length k).toNat := by
    rwa [CreateLeafClusters_length] at h
  simp [CreateLeafClusters, List.getElem_map]

theorem CalculateClusterBounds_fields (c : FGaussianCluster) (s : List FGaussianSplatData) :
    (CalculateClusterBounds c s).ClusterID = c.ClusterID ∧
    (CalculateClusterBounds c s).ParentClusterID = c.ParentClusterID ∧
    (CalculateClusterBounds c s).ChildClusterIDs = c.ChildClusterIDs ∧
    (CalculateClusterBounds c s).LODLevel = c.LODLevel ∧
    (CalculateClusterBounds c s).SplatStartIndex = c.SplatStartIndex ∧
    (CalculateClusterBounds c s).SplatCount = c.SplatCount ∧
    (CalculateClusterBounds c s).MaxError = c.MaxError :=
  ⟨rfl, rfl, rfl, rfl, rfl, rfl, rfl⟩

theorem MakeParentCluster_fields (slice : List FGaussianCluster) (lod cid : ℕ) :
    (MakeParentCluster slice lod cid).ClusterID = cid ∧
    (MakeParentCluster slice lod cid).ParentClusterID = RootParentID ∧
    (MakeParentCluster slice lod cid).ChildClusterIDs =
      slice.map (fun ch => ch.ClusterID) ∧
    (MakeParentCluster slice lod cid).LODLevel = lod ∧
    (MakeParentCluster slice lod cid).SplatStartIndex =
      slice.foldl (fun m ch => min m ch.SplatStartIndex) MAXuint32 ∧
    (MakeParentCluster slice lod cid).SplatCount =
      slice.foldl (fun t ch => t + ch.SplatCount) 0 ∧
    (MakeParentCluster slice lod cid).MaxError = 0 :=
  ⟨rfl, rfl, rfl, rfl, rfl, rfl, rfl⟩

theorem BuildParentLevel_parents_length (cur : List FGaussianCluster) (m : ℤ)
    (lod nid : ℕ) :
    (BuildParentLevel cur m lod nid).2.length = (divideAndRoundUp cur.length m).toNat := by
  simp [BuildParentLevel]

theorem BuildParentLevel_parents_getElem (cur : List FGaussianCluster) (m : ℤ)
    (lod nid : ℕ) (k : ℕ) (h : k < (BuildParentLevel cur m lod nid).2.length) :
    (BuildParentLevel cur m lod nid).2[k] =
      MakeParentCluster ((cur.drop (k * m.toNat)).take m.toNat) lod (nid + k) := by
  have h' : k < (divideAndRoundUp cur.length m).toNat := by
    rwa [BuildParentLevel_parents_length] at h
  simp [BuildParentLevel, List.getElem_map]

theorem BuildParentLevel_upd (cur : List FGaussianCluster) (m : ℤ) (lod nid : ℕ) :
    (BuildParentLevel cur m lod nid).1 =
      setParentIDsFrom nid m.toNat (divideAndRoundUp cur.length m).toNat 0 cur := rfl

/-! Arithmetic of the partition sizes. -/

/-- With at least two items and a non-positive group size, the C++
rounding-up division produces no groups at all. -/
theorem divideAndRoundUp_toNat_eq_zero_of_nonpos (n : ℕ) (k : ℤ) (hn : 2 ≤ n) (hk : k ≤ 0) :
    (divideAndRoundUp (n : ℤ) k).toNat = 0 := by
  rcases lt_or_eq_of_le hk with hk' | hk'
  · unfold divideAndRoundUp
    rcases le_or_lt 0 ((n : ℤ) + k - 1) with hd | hd
    · rw [Int.toNat_eq_zero]
      have h1 : (n : ℤ) + k - 1 = ((n : ℤ) + k - 1) := rfl
      calc ((n : ℤ) + k - 1).tdiv k = ((n : ℤ) + k - 1).tdiv (-(-k)) := by ring_nf
        _ = -(((n : ℤ) + k - 1).tdiv (-k)) := Int.tdiv_neg _ _
        _ ≤ 0 := neg_nonpos_of_nonneg (Int.tdiv_nonneg hd (by omega))
    · rw [Int.toNat_eq_zero]
      have heq : ((n : ℤ) + k - 1).tdiv k = (-((n : ℤ) + k - 1)).tdiv (-k) :=
        (Int.neg_tdiv_neg _ _).symm
      rw [heq, Int.tdiv_eq_zero_of_lt (by omega) (by omega)]
  · subst hk'
    simp [divideAndRoundUp, Int.tdiv_zero]

/-- Any group index below `ceil(n/k)` starts before `n` (`k ≥ 1`). -/
theorem mul_lt_of_lt_ceilDiv (n : ℕ) (k : ℤ) (hk : 1 ≤ k) (i : ℕ)
    (hi : i < (divideAndRoundUp (n : ℤ) k).toNat) : i * k.toNat < n := by
  have hd0 : (0 : ℤ) ≤ (n : ℤ) + k - 1 := by omega
  have htd : (divideAndRoundUp (n : ℤ) k) = ((n : ℤ) + k - 1) / k := by
    unfold divideAndRoundUp
    exact Int.tdiv_eq_ediv hd0 (by omega)
  have h1 : ((i : ℤ) + 1) ≤ ((n : ℤ) + k - 1) / k := by
    rw [← htd]
    have := Int.lt_toNat.mp hi
    omega
  have h2 : ((i : ℤ) + 1) * k ≤ (n : ℤ) + k - 1 :=
    (Int.le_ediv_iff_mul_le (by omega)).mp h1
  have h3 : (i : ℤ) * k ≤ (n : ℤ) - 1 := by nlinarith
  have hkeq : (k.toNat : ℤ) = k := Int.toNat_of_nonneg (by omega)
  have h4 : ((i * k.toNat : ℕ) : ℤ) < (n : ℤ) := by
    push_cast
    rw [hkeq]
    omega
  exact_mod_cast h4

/-- The leaf level satisfies the invariant. -/
theorem BuildInv_init (splats : List FGaussianSplatData) (k : ℤ)
    (hN1 : 1 ≤ splats.length) (hN2 : splats.length ≤ 4294967296) :
    BuildInv splats.length (CreateLeafClusters splats k) (CreateLeafClusters splats k)
      (CreateLeafClusters splats k).length := by
  have hlen := CreateLeafClusters_length splats k
  have hproj : ∀ (i : ℕ) (h : i < (CreateLeafClusters splats k).length),
      ((CreateLeafClusters splats k)[i]).ClusterID = i ∧
      ((CreateLeafClusters splats k)[i]).ChildClusterIDs = [] ∧
      ((CreateLeafClusters splats k)[i]).MaxError = 0 ∧
      ((CreateLeafClusters splats k)[i]).SplatStartIndex =
        uint32OfInt (Int.ofNat i * k) := by
    intro i h
    rw [CreateLeafClusters_getElem splats k i h]
    exact ⟨(CalculateClusterBounds_fields _ _).1,
      (CalculateClusterBounds_fields _ _).2.2.1,
      (CalculateClusterBounds_fields _ _).2.2.2.2.2.2,
      (CalculateClusterBounds_fields _ _).2.2.2.2.1⟩
  have hstart : ∀ (i : ℕ) (h : i < (CreateLeafClusters splats k).length),
      uint32OfInt ((i : ℤ) * k) < splats.length := by
    intro i h
    have hi : i < (divideAndRoundUp (splats.length : ℤ) k).toNat := by rwa [hlen] at h
    rcases le_or_lt 1 k with hk | hk
    · have hmul : i * k.toNat < splats.length := mul_lt_of_lt_ceilDiv splats.length k hk i hi
      have hcast : ((i : ℤ) * k) = ((i * k.toNat : ℕ) : ℤ) := by
        push_cast
        rw [Int.toNat_of_nonneg (by omega)]
      have hz : (0 : ℤ) ≤ (i : ℤ) * k := by positivity
      have hz2 : (i : ℤ) * k < 4294967296 := by
        rw [hcast]
        omega
      unfold uint32OfInt
      rw [Int.emod_eq_of_lt hz hz2, hcast, Int.toNat_natCast]
      exact hmul
    · have hk' : k ≤ 0 := by omega
      have hione : i = 0 := by
        rcases le_or_lt 2 splats.length with h2 | h2
        · exfalso
          rw [divideAndRoundUp_toNat_eq_zero_of_nonpos splats.length k h2 hk'] at hi
          omega
        · have hN : splats.length = 1 := by omega
          rw [hN] at hi
          unfold divideAndRoundUp at hi
          have hsimp : ((1 : ℕ) : ℤ) + k - 1 = k := by push_cast; ring
          rw [hsimp] at hi
          rcases eq_or_lt_of_le hk' with hk0 | hkneg
          · rw [hk0] at hi
            simp [Int.tdiv_zero] at hi
          · rw [Int.tdiv_self (by omega)] at hi
            omega
      subst hione
      simp only [Nat.cast_zero, zero_mul]
      unfold uint32OfInt
      simp
      omega
  refine ⟨rfl, fun i h => (hproj i h).1, ⟨[], by simp⟩, ?_, ?_, ?_, ?_⟩
  · intro c hc cid hcid
    rcases List.mem_iff_getElem.mp hc with ⟨i, hi, rfl⟩
    rw [(hproj i hi).2.1] at hcid
    simp at hcid
  · intro c hc
    rcases List.mem_iff_getElem.mp hc with ⟨i, hi, rfl⟩
    exact (hproj i hi).2.2.1
  · intro c hc
    rcases List.mem_iff_getElem.mp hc with ⟨i, hi, rfl⟩
    rw [(hproj i hi).2.2.2]
    exact hstart i hi
  · intro c hc hne
    rcases List.mem_iff_getElem.mp hc with ⟨i, hi, rfl⟩
    exact absurd ((hproj i hi).2.1) hne

/-- One parent-building iteration of the level loop preserves the
invariant, with the internals of `BuildParentLevel` spelled out. -/
theorem BuildInv_step_explicit (N : ℕ) (front cur upd parents : List FGaussianCluster)
    (nextID : ℕ) (m : ℤ) (lod : ℕ)
    (hinv : BuildInv N (front ++ cur) cur nextID)
    (hcur2 : 1 < cur.length) (hN2 : N ≤ 4294967296)
    (hupd : upd = setParentIDsFrom nextID m.toNat
      ((divideAndRoundUp (cur.length : ℤ) m).toNat) 0 cur)
    (hparents : parents = (List.range ((divideAndRoundUp (cur.length : ℤ) m).toNat)).map
      (fun pIdx => MakeParentCluster ((cur.drop (pIdx * m.toNat)).take m.toNat) lod
        (nextID + pIdx))) :
    BuildInv N (updateParentIDs (front ++ cur) upd ++ parents) parents
      (nextID + parents.length) := by
  have hid := hinv.idIdx
  have hnextEq := hinv.nextEq
  set np := (divideAndRoundUp (cur.length : ℤ) m).toNat with hnp
  have hm1 : ∀ pIdx, pIdx < np → 1 ≤ m := by
    intro pIdx hp
    by_contra hm
    push_neg at hm
    rw [hnp, divideAndRoundUp_toNat_eq_zero_of_nonpos cur.length m (by omega) (by omega)] at hp
    omega
  have hstartlt : ∀ pIdx, pIdx < np → pIdx * m.toNat < cur.length := by
    intro pIdx hp
    exact mul_lt_of_lt_ceilDiv cur.length m (hm1 pIdx hp) pIdx (by rw [← hnp]; exact hp)
  have hslice_ne : ∀ pIdx, pIdx < np →
      (cur.drop (pIdx * m.toNat)).take m.toNat ≠ [] := by
    intro pIdx hp
    have hm := hm1 pIdx hp
    have h1 := hstartlt pIdx hp
    have hlen : ((cur.drop (pIdx * m.toNat)).take m.toNat).length =
        min m.toNat (cur.length - pIdx * m.toNat) := by
      simp [List.length_take, List.length_drop]
    intro hnil
    rw [hnil] at hlen
    simp at hlen
    omega
  have hslice_sub : ∀ pIdx, ∀ ch ∈ (cur.drop (pIdx * m.toNat)).take m.toNat, ch ∈ cur :=
    fun _ _ h => List.mem_of_mem_drop (List.mem_of_mem_take h)
  have hfl : front.length + cur.length = (front ++ cur).length := by simp
  have hcurID : ∀ (j : ℕ) (hj : j < cur.length), (cur[j]).ClusterID = front.length + j := by
    intro j hj
    have hidx : front.length + j < (front ++ cur).length := by simp; omega
    have h := hid (front.length + j) hidx
    have he : (front ++ cur)[front.length + j] = cur[j] := by
      rw [List.getElem_append_right (by omega)]
      congr 1
      omega
    rw [he] at h
    exact h
  have hfrontlt : ∀ x ∈ front, x.ClusterID < front.length := by
    intro x hx
    obtain ⟨i, hi, rfl⟩ := List.mem_iff_getElem.mp hx
    have hidx : i < (front ++ cur).length := by simp; omega
    have h := hid i hidx
    have he : (front ++ cur)[i] = front[i] := List.getElem_append_left hi
    rw [he] at h
    rw [h]
    exact hi
  have hUlen : upd.length = cur.length := by rw [hupd]; exact setParentIDsFrom_length ..
  have hUj : ∀ (j : ℕ) (hj : j < cur.length), upd[j]? =
      some (if j / m.toNat < np then
          { cur[j] with ParentClusterID := nextID + j / m.toNat }
        else cur[j]) := by
    intro j hj
    rw [hupd, setParentIDsFrom_getElem?, List.getElem?_eq_getElem hj]
    simp
  have hUdiff : ∀ (j : ℕ) (h : j < upd.length) (h' : j < cur.length),
      upd[j] = { cur[j] with ParentClusterID := (upd[j]).ParentClusterID } := by
    intro j h h'
    have hj := hUj j h'
    rw [List.getElem?_eq_getElem h] at hj
    have hv := Option.some_injective _ hj
    by_cases hcond : j / m.toNat < np
    · rw [if_pos hcond] at hv
      rw [hv]
    · rw [if_neg hcond] at hv
      rw [hv]
  have hkey : updateParentIDs (front ++ cur) upd = front ++ upd :=
    updateParentIDs_eq upd front cur hfrontlt hcurID (hUlen.trans rfl) hUdiff
  have hPlen : parents.length = np := by rw [hparents]; simp
  have hPk : ∀ (k : ℕ) (hk : k < np), parents[k]? =
      some (MakeParentCluster ((cur.drop (k * m.toNat)).take m.toNat) lod (nextID + k)) := by
    intro k hk
    rw [hparents]
    rw [List.getElem?_map, List.getElem?_range hk]
    rfl
  rw [hkey]
  have hlenU2 : (front ++ upd).length = (front ++ cur).length := by simp [hUlen]
  have htotlen : ((front ++ upd) ++ parents).length = (front ++ cur).length + np := by
    simp [hUlen, hPlen]
    omega
  -- uniform pointwise description of the new array
  have hold : ∀ (i : ℕ) (hi : i < (front ++ cur).length),
      ∃ pid, ((front ++ upd) ++ parents)[i]? =
        some { (front ++ cur)[i] with ParentClusterID := pid } := by
    intro i hi
    have hi' : i < (front ++ upd).length := by rw [hlenU2]; exact hi
    rw [List.getElem?_append_left hi']
    rcases lt_or_ge i front.length with hif | hif
    · refine ⟨((front ++ cur)[i]).ParentClusterID, ?_⟩
      rw [List.getElem?_append_left hif, List.getElem?_eq_getElem hif]
      have he : (front ++ cur)[i] = front[i] := List.getElem_append_left hif
      rw [he]
    · have hj : i - front.length < cur.length := by
        simp only [List.length_append] at hi
        omega
      have he : (front ++ cur)[i] = cur[i - front.length] := by
        rw [List.getElem_append_right hif]
      rw [List.getElem?_append_right hif, hUj (i - front.length) hj]
      by_cases hcond : (i - front.length) / m.toNat < np
      · exact ⟨nextID + (i - front.length) / m.toNat, by rw [he, if_pos hcond]⟩
      · exact ⟨(cur[i - front.length]).ParentClusterID, by rw [he, if_neg hcond]⟩
  have hnew : ∀ (k : ℕ) (hk : k < np),
      ((front ++ upd) ++ parents)[(front ++ cur).length + k]? =
        some (MakeParentCluster ((cur.drop (k * m.toNat)).take m.toNat) lod (nextID + k)) := by
    intro k hk
    have hb : (front ++ upd).length ≤ (front ++ cur).length + k := by rw [hlenU2]; omega
    rw [List.getElem?_append_right hb, hlenU2]
    have heq : (front ++ cur).length + k - (front ++ cur).length = k := by omega
    rw [heq]
    exact hPk k hk
  -- characterize membership in the new array
  have hmem : ∀ c ∈ (front ++ upd) ++ parents,
      (∃ (i : ℕ) (hi : i < (front ++ cur).length) (pid : ℕ),
        c = { (front ++ cur)[i] with ParentClusterID := pid }) ∨
      (∃ (k : ℕ) (hk : k < np),
        c = MakeParentCluster ((cur.drop (k * m.toNat)).take m.toNat) lod (nextID + k)) := by
    intro c hc
    obtain ⟨i, hi0, rfl⟩ := List.mem_iff_getElem.mp hc
    have hi : i < (front ++ cur).length + np := by rw [← htotlen]; exact hi0
    rcases lt_or_ge i (front ++ cur).length with hif | hif
    · obtain ⟨pid, hpid⟩ := hold i hif
      rw [List.getElem?_eq_getElem hi0] at hpid
      exact Or.inl ⟨i, hif, pid, Option.some_injective _ hpid⟩
    · have hk : i - (front ++ cur).length < np := by omega
      have h2 := hnew (i - (front ++ cur).length) hk
      have heq : (front ++ cur).length + (i - (front ++ cur).length) = i := by omega
      rw [heq, List.getElem?_eq_getElem hi0] at h2
      exact Or.inr ⟨i - (front ++ cur).length, hk, Option.some_injective _ h2⟩
  -- field preservation of the stored copies
  have holdfields : ∀ (i : ℕ) (hi : i < (front ++ cur).length),
      SplatCountAt ((front ++ upd) ++ parents) i = ((front ++ cur)[i]).SplatCount ∧
      SplatStartAt ((front ++ upd) ++ parents) i = ((front ++ cur)[i]).SplatStartIndex := by
    intro i hi
    obtain ⟨pid, hpid⟩ := hold i hi
    unfold SplatCountAt SplatStartAt
    rw [hpid]
    exact ⟨rfl, rfl⟩
  have haccfields : ∀ (i : ℕ) (hi : i < (front ++ cur).length),
      SplatCountAt (front ++ cur) i = ((front ++ cur)[i]).SplatCount ∧
      SplatStartAt (front ++ cur) i = ((front ++ cur)[i]).SplatStartIndex := by
    intro i hi
    unfold SplatCountAt SplatStartAt
    rw [List.getElem?_eq_getElem hi]
    exact ⟨rfl, rfl⟩
  have hpres : ∀ (cid : ℕ), cid < (front ++ cur).length →
      SplatCountAt ((front ++ upd) ++ parents) cid = SplatCountAt (front ++ cur) cid ∧
      SplatStartAt ((front ++ upd) ++ parents) cid = SplatStartAt (front ++ cur) cid := by
    intro cid hcid
    exact ⟨by rw [(holdfields cid hcid).1, (haccfields cid hcid).1],
      by rw [(holdfields cid hcid).2, (haccfields cid hcid).2]⟩
  have hchfields : ∀ ch ∈ cur, ch.ClusterID < (front ++ cur).length ∧
      SplatCountAt ((front ++ upd) ++ parents) ch.ClusterID = ch.SplatCount ∧
      SplatStartAt ((front ++ upd) ++ parents) ch.ClusterID = ch.SplatStartIndex := by
    intro ch hch
    obtain ⟨j, hj, rfl⟩ := List.mem_iff_getElem.mp hch
    have hID := hcurID j hj
    have hidx : front.length + j < (front ++ cur).length := by simp; omega
    have he : (front ++ cur)[front.length + j] = cur[j] := by
      rw [List.getElem_append_right (by omega)]
      congr 1
      omega
    refine ⟨by rw [hID]; exact hidx, ?_, ?_⟩
    · have h1 := (holdfields (front.length + j) hidx).1
      rw [he] at h1
      rw [hID]
      exact h1
    · have h1 := (holdfields (front.length + j) hidx).2
      rw [he] at h1
      rw [hID]
      exact h1
  have hcurmem : ∀ ch ∈ cur, ch ∈ front ++ cur := fun ch hch => List.mem_append_right front hch
  refine ⟨?_, ?_, ⟨front ++ upd, rfl⟩, ?_, ?_, ?_, ?_⟩
  · -- nextEq
    rw [htotlen, hPlen, hnextEq, hnp]
  · -- idIdx
    intro i h
    have hi : i < (front ++ cur).length + np := by rw [← htotlen]; exact h
    rcases lt_or_ge i (front ++ cur).length with hif | hif
    · obtain ⟨pid, hpid⟩ := hold i hif
      rw [List.getElem?_eq_getElem h] at hpid
      have hv := Option.some_injective _ hpid
      rw [hv]
      exact hid i hif
    · have hk : i - (front ++ cur).length < np := by omega
      have h2 := hnew (i - (front ++ cur).length) hk
      have heq : (front ++ cur).length + (i - (front ++ cur).length) = i := by omega
      rw [heq, List.getElem?_eq_getElem h] at h2
      have hv := Option.some_injective _ h2
      rw [hv, (MakeParentCluster_fields _ _ _).1, hnextEq]
      omega
  · -- childLt
    intro c hc cid hcid
    rcases hmem c hc with ⟨i, hi, pid, rfl⟩ | ⟨k, hk, rfl⟩
    · exact hinv.childLt ((front ++ cur)[i]) (List.getElem_mem hi) cid hcid
    · rw [(MakeParentCluster_fields _ _ _).2.2.1] at hcid
      obtain ⟨ch, hch, rfl⟩ := List.mem_map.mp hcid
      have hch2 := hslice_sub k ch hch
      have hlt := (hchfields ch hch2).1
      rw [(MakeParentCluster_fields _ _ _).1]
      rw [hnextEq]
      omega
  · -- err0
    intro c hc
    rcases hmem c hc with ⟨i, hi, pid, rfl⟩ | ⟨k, hk, rfl⟩
    · exact hinv.err0 ((front ++ cur)[i]) (List.getElem_mem hi)
    · exact (MakeParentCluster_fields _ _ _).2.2.2.2.2.2
  · -- startLt
    intro c hc
    rcases hmem c hc with ⟨i, hi, pid, rfl⟩ | ⟨k, hk, rfl⟩
    · exact hinv.startLt ((front ++ cur)[i]) (List.getElem_mem hi)
    · obtain ⟨ch0, hch0⟩ := List.exists_mem_of_ne_nil _ (hslice_ne k hk)
      show (MakeParentCluster ((cur.drop (k * m.toNat)).take m.toNat) lod
        (nextID + k)).SplatStartIndex < N
      rw [(MakeParentCluster_fields _ _ _).2.2.2.2.1]
      have hfold : ((cur.drop (k * m.toNat)).take m.toNat).foldl
          (fun mm ch => min mm ch.SplatStartIndex) MAXuint32 =
          (((cur.drop (k * m.toNat)).take m.toNat).map
            (fun c => c.SplatStartIndex)).foldl min MAXuint32 :=
        (List.foldl_map _ _ _ _).symm
      rw [hfold]
      have hle := foldl_min_le_mem
        (List.mem_map_of_mem (fun c => c.SplatStartIndex) hch0) MAXuint32
      exact lt_of_le_of_lt hle (hinv.startLt ch0 (hcurmem ch0 (hslice_sub k ch0 hch0)))
  · -- agg
    intro c hc hne
    rcases hmem c hc with ⟨i, hi, pid, rfl⟩ | ⟨k, hk, rfl⟩
    · -- an old entry: delegate to the invariant on the old array
      have hmem0 : (front ++ cur)[i] ∈ front ++ cur := List.getElem_mem hi
      have hne0 : ((front ++ cur)[i]).ChildClusterIDs ≠ [] := hne
      obtain ⟨hsum, hmin, hex⟩ := hinv.agg ((front ++ cur)[i]) hmem0 hne0
      have hcidlt : ∀ cid ∈ ((front ++ cur)[i]).ChildClusterIDs,
          cid < (front ++ cur).length := by
        intro cid hcid
        have h1 := hinv.childLt ((front ++ cur)[i]) hmem0 cid hcid
        have h2 := hid i hi
        omega
      refine ⟨?_, ?_, ?_⟩
      · show ((front ++ cur)[i]).SplatCount =
          ((((front ++ cur)[i]).ChildClusterIDs).map
            (fun cid => SplatCountAt ((front ++ upd) ++ parents) cid)).sum
        rw [hsum]
        congr 1
        exact (List.map_congr_left (fun cid hcid =>
          (hpres cid (hcidlt cid hcid)).1)).symm
      · intro cid hcid
        have h1 := hmin cid hcid
        show ((front ++ cur)[i]).SplatStartIndex ≤
          SplatStartAt ((front ++ upd) ++ parents) cid
        rw [(hpres cid (hcidlt cid hcid)).2]
        exact h1
      · obtain ⟨cid, hcid, hcideq⟩ := hex
        refine ⟨cid, hcid, ?_⟩
        show SplatStartAt ((front ++ upd) ++ parents) cid =
          ((front ++ cur)[i]).SplatStartIndex
        rw [(hpres cid (hcidlt cid hcid)).2]
        exact hcideq
    · -- a fresh parent: aggregation by construction
      have hsliceN : ∀ ch ∈ (cur.drop (k * m.toNat)).take m.toNat,
          ch.SplatStartIndex < N := fun ch hch =>
        hinv.startLt ch (hcurmem ch (hslice_sub k ch hch))
      have hfold : ((cur.drop (k * m.toNat)).take m.toNat).foldl
          (fun mm ch => min mm ch.SplatStartIndex) MAXuint32 =
          (((cur.drop (k * m.toNat)).take m.toNat).map
            (fun c => c.SplatStartIndex)).foldl min MAXuint32 :=
        (List.foldl_map _ _ _ _).symm
      refine ⟨?_, ?_, ?_⟩
      · show (MakeParentCluster _ lod (nextID + k)).SplatCount =
          (((MakeParentCluster _ lod (nextID + k)).ChildClusterIDs).map
            (fun cid => SplatCountAt ((front ++ upd) ++ parents) cid)).sum
        rw [(MakeParentCluster_fields _ _ _).2.2.2.2.2.1,
          (MakeParentCluster_fields _ _ _).2.2.1, foldl_add_eq_sum, Nat.zero_add,
          List.map_map]
        congr 1
        exact (List.map_congr_left (fun ch hch =>
          (hchfields ch (hslice_sub k ch hch)).2.1)).symm
      · intro cid hcid
        rw [(MakeParentCluster_fields _ _ _).2.2.1] at hcid
        obtain ⟨ch, hch, rfl⟩ := List.mem_map.mp hcid
        show (MakeParentCluster _ lod (nextID + k)).SplatStartIndex ≤
          SplatStartAt ((front ++ upd) ++ parents) ch.ClusterID
        rw [(MakeParentCluster_fields _ _ _).2.2.2.2.1,
          (hchfields ch (hslice_sub k ch hch)).2.2, hfold]
        exact foldl_min_le_mem
          (List.mem_map_of_mem (fun c => c.SplatStartIndex) hch) MAXuint32
      · rcases foldl_min_mem_or_init
          (((cur.drop (k * m.toNat)).take m.toNat).map (fun c => c.SplatStartIndex))
          MAXuint32 with hcase | hcase
        · obtain ⟨ch0, hch0⟩ := List.exists_mem_of_ne_nil _ (hslice_ne k hk)
          have hle := foldl_min_le_mem
            (List.mem_map_of_mem (fun c => c.SplatStartIndex) hch0) MAXuint32
          have hstart0 := hsliceN ch0 hch0
          refine ⟨ch0.ClusterID, ?_, ?_⟩
          · rw [(MakeParentCluster_fields _ _ _).2.2.1]
            exact List.mem_map_of_mem (fun ch => ch.ClusterID) hch0
          · rw [(hchfields ch0 (hslice_sub k ch0 hch0)).2.2]
            show ch0.SplatStartIndex =
              (MakeParentCluster _ lod (nextID + k)).SplatStartIndex
            rw [(MakeParentCluster_fields _ _ _).2.2.2.2.1, hfold]
            have hNle : N ≤ MAXuint32 + 1 := by unfold MAXuint32; omega
            rw [hcase] at hle ⊢
            have hle2 : MAXuint32 ≤ ch0.SplatStartIndex := hle
            unfold MAXuint32 at hle2 ⊢
            omega
        · obtain ⟨ch0, hch0, hch0eq⟩ := List.mem_map.mp hcase
          refine ⟨ch0.ClusterID, ?_, ?_⟩
          · rw [(MakeParentCluster_fields _ _ _).2.2.1]
            exact List.mem_map_of_mem (fun ch => ch.ClusterID) hch0
          · rw [(hchfields ch0 (hslice_sub k ch0 hch0)).2.2]
            show ch0.SplatStartIndex =
              (MakeParentCluster _ lod (nextID + k)).SplatStartIndex
            rw [(MakeParentCluster_fields _ _ _).2.2.2.2.1, hfold]
            exact hch0eq

/-- One parent-building iteration preserves the invariant. -/
theorem BuildInv_step (N : ℕ) (acc cur : List FGaussianCluster) (nextID : ℕ) (m : ℤ)
    (lod : ℕ) (hinv : BuildInv N acc cur nextID) (hcur2 : 1 < cur.length)
    (hN2 : N ≤ 4294967296) :
    BuildInv N
      (updateParentIDs acc (BuildParentLevel cur m lod nextID).1 ++
        (BuildParentLevel cur m lod nextID).2)
      (BuildParentLevel cur m lod nextID).2
      (nextID + (BuildParentLevel cur m lod nextID).2.length) := by
  obtain ⟨front, hacc⟩ := hinv.tail
  subst hacc
  exact BuildInv_step_explicit N front cur _ _ nextID m lod hinv hcur2 hN2
    (BuildParentLevel_upd cur m lod nextID) rfl

/-- Unfolding of the level loop when more than one cluster remains. -/
theorem BuildLevels_succ_gt (f : ℕ) (cur : List FGaussianCluster) (m : ℤ)
    (lod nextID : ℕ) (acc : List FGaussianCluster) (h : 1 < cur.length) :
    BuildLevels (f + 1) cur m lod nextID acc =
      BuildLevels f (BuildParentLevel cur m (lod + 1) nextID).2 m (lod + 1)
        (nextID + (BuildParentLevel cur m (lod + 1) nextID).2.length)
        (updateParentIDs acc (BuildParentLevel cur m (lod + 1) nextID).1 ++
          (BuildParentLevel cur m (lod + 1) nextID).2) := by
  show (if cur.length > 1 then _ else _) = _
  rw [if_pos h]

/-- Unfolding of the level loop when at most one cluster remains. -/
theorem BuildLevels_succ_le (f : ℕ) (cur : List FGaussianCluster) (m : ℤ)
    (lod nextID : ℕ) (acc : List FGaussianCluster) (h : ¬1 < cur.length) :
    BuildLevels (f + 1) cur m lod nextID acc = (acc, lod) := by
  show (if cur.length > 1 then _ else _) = _
  rw [if_neg h]

/-- The final cluster array of the level loop satisfies the invariant. -/
theorem BuildLevels_inv (N : ℕ) (m : ℤ) (hN2 : N ≤ 4294967296) :
    ∀ (fuel : ℕ) (cur : List FGaussianCluster) (lod nextID : ℕ)
      (acc : List FGaussianCluster), BuildInv N acc cur nextID →
    ∃ cur' nextID', BuildInv N (BuildLevels fuel cur m lod nextID acc).1 cur' nextID' := by
  intro fuel
  induction fuel with
  | zero =>
    intro cur lod nextID acc hinv
    exact ⟨cur, nextID, hinv⟩
  | succ f ih =>
    intro cur lod nextID acc hinv
    by_cases hlen : 1 < cur.length
    · rw [BuildLevels_succ_gt f cur m lod nextID acc hlen]
      exact ih _ _ _ _ (BuildInv_step N acc cur nextID m (lod + 1) hinv hlen hN2)
    · rw [BuildLevels_succ_le f cur m lod nextID acc hlen]
      exact ⟨cur, nextID, hinv⟩

theorem CalculateAllErrors_eq_upTo (all : List FGaussianCluster) :
    CalculateAllErrors all = CalcUpTo all all.length := rfl

theorem CalcUpTo_succ (all : List FGaussianCluster) (k : ℕ) :
    CalcUpTo all (k + 1) = CalcErrStep (CalcUpTo all k) k := by
  unfold CalcUpTo
  rw [List.range_succ, List.foldl_append]
  rfl

theorem CalcErrStep_length (cur : List FGaussianCluster) (i : ℕ) :
    (CalcErrStep cur i).length = cur.length := by
  unfold CalcErrStep
  cases h : cur[i]? with
  | none => rfl
  | some c =>
    by_cases hl : c.IsLeaf
    · simp [hl]
    · simp [hl]

theorem CalcUpTo_length (all : List FGaussianCluster) (k : ℕ) :
    (CalcUpTo all k).length = all.length := by
  induction k with
  | zero => rfl
  | succ k ih => rw [CalcUpTo_succ, CalcErrStep_length, ih]

theorem CalcErrStep_getElem?_ne (cur : List FGaussianCluster) (i j : ℕ) (h : j ≠ i) :
    (CalcErrStep cur i)[j]? = cur[j]? := by
  unfold CalcErrStep
  cases hc : cur[i]? with
  | none => rfl
  | some c =>
    by_cases hl : c.IsLeaf
    · simp [hl]
    · simp [hl, List.getElem?_set_ne (Ne.symm h)]

/-- Entries below `k` never change after step `k`. -/
theorem CalcUpTo_stable (all : List FGaussianCluster) (k j : ℕ) (hj : j < k) :
    ∀ (mm : ℕ), k ≤ mm → (CalcUpTo all mm)[j]? = (CalcUpTo all k)[j]? := by
  intro mm hm
  induction mm, hm using Nat.le_induction with
  | base => rfl
  | succ mm hm ih =>
    rw [CalcUpTo_succ, CalcErrStep_getElem?_ne _ _ _ (by omega), ih]

theorem CalcErrStep_strip (cur : List FGaussianCluster) (i : ℕ) :
    (CalcErrStep cur i).map StripErr = cur.map StripErr := by
  unfold CalcErrStep
  cases hc : cur[i]? with
  | none => rfl
  | some c =>
    by_cases hl : c.IsLeaf
    · simp [hl]
    · show List.map StripErr
        (if c.IsLeaf = true then cur else cur.set i (CalculateClusterError c cur)) =
        List.map StripErr cur
      rw [if_neg hl, List.map_set]
      have hs : StripErr (CalculateClusterError c cur) = StripErr c := rfl
      rw [hs]
      apply list_set_self_of_getElem?
      rw [List.getElem?_map, hc]
      rfl

theorem CalcUpTo_strip (all : List FGaussianCluster) (k : ℕ) :
    (CalcUpTo all k).map StripErr = all.map StripErr := by
  induction k with
  | zero => rfl
  | succ k ih => rw [CalcUpTo_succ, CalcErrStep_strip, ih]

/-- Pointwise version: every entry of every prefix state agrees with the
original entry on everything but `MaxError`. -/
theorem CalcUpTo_strip_getElem (all : List FGaussianCluster) (k i : ℕ)
    (h : i < (CalcUpTo all k).length) (h' : i < all.length) :
    StripErr ((CalcUpTo all k)[i]) = StripErr (all[i]) := by
  have hmap := CalcUpTo_strip all k
  have h1 : ((CalcUpTo all k).map StripErr)[i]? = (all.map StripErr)[i]? := by rw [hmap]
  rw [List.getElem?_map, List.getElem?_map, List.getElem?_eq_getElem h,
    List.getElem?_eq_getElem h'] at h1
  simpa using h1

theorem StripErr_eq_fields {x y : FGaussianCluster} (h : StripErr x = StripErr y) :
    x.ClusterID = y.ClusterID ∧ x.ChildClusterIDs = y.ChildClusterIDs ∧
    x.BoundingSphereCenter = y.BoundingSphereCenter ∧
    x.BoundingSphereRadius = y.BoundingSphereRadius ∧
    x.SplatCount = y.SplatCount ∧ x.SplatStartIndex = y.SplatStartIndex := by
  cases x
  cases y
  simp only [StripErr, FGaussianCluster.mk.injEq] at h
  obtain ⟨h1, h2, h3, h4, h5, h6, h7, h8, h9, h10, h11, h12⟩ := h
  exact ⟨h1, h3, h7, h8, h10, h9⟩

theorem CalcUpTo_idIdx (all : List FGaussianCluster)
    (hid : ∀ (i : ℕ) (h : i < all.length), (all[i]).ClusterID = i) (k : ℕ) :
    ∀ (i : ℕ) (h : i < (CalcUpTo all k).length), ((CalcUpTo all k)[i]).ClusterID = i := by
  intro i h
  have h' : i < all.length := by rw [CalcUpTo_length] at h; exact h
  rw [(StripErr_eq_fields (CalcUpTo_strip_getElem all k i h h')).1]
  exact hid i h'

/-- The central fact behind claim C1: after the error pass, every
non-leaf cluster's stored `MaxError` equals the error formula
re-evaluated on the FINAL cluster array — the pass visits children
(which sit at smaller indices) before parents, so each parent reads
already-final child values. -/
theorem CalculateAllErrors_formula (all : List FGaussianCluster)
    (hid : ∀ (i : ℕ) (h : i < all.length), (all[i]).ClusterID = i)
    (hchild : ∀ c ∈ all, ∀ cid ∈ c.ChildClusterIDs, cid < c.ClusterID)
    (i : ℕ) (h : i < (CalculateAllErrors all).length)
    (hne : ((CalculateAllErrors all)[i]).ChildClusterIDs ≠ []) :
    ((CalculateAllErrors all)[i]).MaxError =
      ErrorFormula ((CalculateAllErrors all)[i]) (CalculateAllErrors all) := by
  have hR : CalculateAllErrors all = CalcUpTo all all.length := rfl
  have hi_n : i < all.length := by
    rw [hR, CalcUpTo_length] at h
    exact h
  have hsi_len : i < (CalcUpTo all i).length := by rw [CalcUpTo_length]; exact hi_n
  have hstrip1 : StripErr ((CalcUpTo all i)[i]) = StripErr (all[i]) :=
    CalcUpTo_strip_getElem all i i hsi_len hi_n
  have hstrip2 : StripErr ((CalculateAllErrors all)[i]) = StripErr (all[i]) :=
    CalcUpTo_strip_getElem all all.length i
      (by rw [CalcUpTo_length]; exact hi_n) hi_n
  have hch_eq : ((CalcUpTo all i)[i]).ChildClusterIDs =
      ((CalculateAllErrors all)[i]).ChildClusterIDs := by
    rw [(StripErr_eq_fields hstrip1).2.1, (StripErr_eq_fields hstrip2).2.1]
  have hleaf : ¬(((CalcUpTo all i)[i]).IsLeaf = true) := by
    unfold FGaussianCluster.IsLeaf
    rw [List.isEmpty_iff, hch_eq]
    exact hne
  have hstep2 : CalcErrStep (CalcUpTo all i) i =
      (CalcUpTo all i).set i
        (CalculateClusterError ((CalcUpTo all i)[i]) (CalcUpTo all i)) := by
    unfold CalcErrStep
    rw [List.getElem?_eq_getElem hsi_len]
    show (if ((CalcUpTo all i)[i]).IsLeaf = true then CalcUpTo all i
      else (CalcUpTo all i).set i
        (CalculateClusterError ((CalcUpTo all i)[i]) (CalcUpTo all i))) = _
    rw [if_neg hleaf]
  have hRival : (CalculateAllErrors all)[i]? =
      some (CalculateClusterError ((CalcUpTo all i)[i]) (CalcUpTo all i)) := by
    rw [hR]
    rw [CalcUpTo_stable all (i + 1) i (by omega) all.length (by omega)]
    rw [CalcUpTo_succ, hstep2]
    exact List.getElem?_set_eq_of_lt _ (by rw [CalcUpTo_length]; exact hi_n)
  have hRieq : (CalculateAllErrors all)[i] =
      CalculateClusterError ((CalcUpTo all i)[i]) (CalcUpTo all i) := by
    rw [List.getElem?_eq_getElem h] at hRival
    exact Option.some_injective _ hRival
  have hc_id : ((CalcUpTo all i)[i]).ClusterID = i := CalcUpTo_idIdx all hid i i hsi_len
  have hch_eq2 : ((CalcUpTo all i)[i]).ChildClusterIDs = (all[i]).ChildClusterIDs :=
    (StripErr_eq_fields hstrip1).2.1
  have hcid_lt : ∀ cid ∈ ((CalcUpTo all i)[i]).ChildClusterIDs, cid < i := by
    intro cid hcid
    rw [hch_eq2] at hcid
    have := hchild (all[i]) (List.getElem_mem hi_n) cid hcid
    rw [hid i hi_n] at this
    exact this
  have hterm : ErrTermFold ((CalcUpTo all i)[i]) (CalcUpTo all i) =
      ErrTermFold ((CalcUpTo all i)[i]) (CalculateAllErrors all) := by
    unfold ErrTermFold
    apply foldl_congr_mem
    intro acc cid hcid
    have hlt := hcid_lt cid hcid
    have hfind1 : (CalcUpTo all i).find? (fun x => x.ClusterID == cid) =
        (CalcUpTo all i)[cid]? := find?_byID _ cid (CalcUpTo_idIdx all hid i)
    have hfind2 : (CalculateAllErrors all).find? (fun x => x.ClusterID == cid) =
        (CalculateAllErrors all)[cid]? := by
      rw [hR]
      exact find?_byID _ cid (CalcUpTo_idIdx all hid all.length)
    have hstab : (CalculateAllErrors all)[cid]? = (CalcUpTo all i)[cid]? := by
      rw [hR]
      exact CalcUpTo_stable all i cid hlt all.length (by omega)
    rw [hfind1, hfind2, hstab]
  have hform : ErrorFormula ((CalcUpTo all i)[i]) (CalcUpTo all i) =
      ErrorFormula ((CalcUpTo all i)[i]) (CalculateAllErrors all) := by
    unfold ErrorFormula
    rw [hterm]
  rw [hRieq]
  exact hform

/-- Errors are nonnegative after the error pass (the written value is
`max 0 ..`, untouched entries keep their initial 0). -/
theorem CalculateAllErrors_nonneg (all : List FGaussianCluster)
    (h0 : ∀ c ∈ all, c.MaxError = 0) :
    ∀ c ∈ CalculateAllErrors all, 0 ≤ c.MaxError := by
  unfold CalculateAllErrors
  refine foldl_invariant (fun (l : List FGaussianCluster) => ∀ c ∈ l, 0 ≤ c.MaxError) ?_ ?_
  · intro c hc
    rw [h0 c hc]
  · intro cur i hP
    unfold CalcErrStep
    cases hc : cur[i]? with
    | none => exact hP
    | some c =>
      by_cases hl : c.IsLeaf
      · simp only [if_pos hl]
        exact hP
      · show ∀ x ∈ (if c.IsLeaf = true then cur
          else cur.set i (CalculateClusterError c cur)), 0 ≤ x.MaxError
        rw [if_neg hl]
        intro x hx
        rcases List.mem_or_eq_of_mem_set hx with hx | hx
        · exact hP x hx
        · rw [hx]
          show 0 ≤ max 0 (ErrTermFold c cur - c.BoundingSphereRadius)
          exact le_max_left _ _

theorem map_stripLOD_set (cs : List FGaussianCluster) (i : ℕ) (c c2 : FGaussianCluster)
    (hc : cs[i]? = some c) (h2 : StripLOD c2 = StripLOD c) :
    (cs.set i c2).map StripLOD = cs.map StripLOD := by
  rw [List.map_set, h2]
  apply list_set_self_of_getElem?
  rw [List.getElem?_map, hc]
  rfl

theorem ProcessClusterLOD_strip (splats : List FGaussianSplatData) (r : ℤ) (level : ℕ)
    (st : LODGenState) (i : ℕ) :
    (ProcessClusterLOD splats r level st i).1.map StripLOD = st.1.map StripLOD := by
  unfold ProcessClusterLOD
  split
  · rfl
  · next c heq =>
    split
    · rfl
    · split
      · exact map_stripLOD_set _ _ _ _ heq rfl
      · dsimp only
        split
        · exact map_stripLOD_set _ _ _ _ heq rfl
        · exact map_stripLOD_set _ _ _ _ heq rfl

theorem GenerateLODSplatsCore_strip (splats : List FGaussianSplatData)
    (hier : FGaussianClusterHierarchy) (r : ℤ) :
    (GenerateLODSplatsCore splats hier r).Clusters.map StripLOD =
      hier.Clusters.map StripLOD ∧
    (GenerateLODSplatsCore splats hier r).NumLODLevels = hier.NumLODLevels ∧
    (GenerateLODSplatsCore splats hier r).SplatsPerCluster = hier.SplatsPerCluster ∧
    (GenerateLODSplatsCore splats hier r).RootClusterIndex = hier.RootClusterIndex ∧
    (GenerateLODSplatsCore splats hier r).NumLeafClusters = hier.NumLeafClusters ∧
    (GenerateLODSplatsCore splats hier r).TotalSplatCount = hier.TotalSplatCount := by
  refine ⟨?_, rfl, rfl, rfl, rfl, rfl⟩
  show (((List.range hier.NumLODLevels).map (fun l => l + 1)).foldl
    (fun st level => (List.range st.1.length).foldl (ProcessClusterLOD splats r level) st)
    (hier.Clusters, ([] : List FGaussianLODSplat), 0)).1.map StripLOD =
    hier.Clusters.map StripLOD
  apply foldl_invariant
    (fun (st : LODGenState) => st.1.map StripLOD = hier.Clusters.map StripLOD)
  · rfl
  · intro st level hP
    apply foldl_invariant
      (fun (st : LODGenState) => st.1.map StripLOD = hier.Clusters.map StripLOD)
    · exact hP
    · intro st2 i hP2
      rw [ProcessClusterLOD_strip]
      exact hP2

/-- The ratio-normalizing wrapper preserves the same structure. -/
theorem GenerateLODSplats_strip (splats : List FGaussianSplatData)
    (hier : FGaussianClusterHierarchy) (r : ℤ) :
    (GenerateLODSplats splats hier r).Clusters.map StripLOD =
      hier.Clusters.map StripLOD ∧
    (GenerateLODSplats splats hier r).NumLODLevels = hier.NumLODLevels ∧
    (GenerateLODSplats splats hier r).SplatsPerCluster = hier.SplatsPerCluster ∧
    (GenerateLODSplats splats hier r).RootClusterIndex = hier.RootClusterIndex ∧
    (GenerateLODSplats splats hier r).NumLeafClusters = hier.NumLeafClusters ∧
    (GenerateLODSplats splats hier r).TotalSplatCount = hier.TotalSplatCount := by
  unfold GenerateLODSplats
  exact GenerateLODSplatsCore_strip splats hier _

theorem StripLOD_eq_fields {x y : FGaussianCluster} (h : StripLOD x = StripLOD y) :
    x.ClusterID = y.ClusterID ∧ x.ParentClusterID = y.ParentClusterID ∧
    x.ChildClusterIDs = y.ChildClusterIDs ∧ x.LODLevel = y.LODLevel ∧
    x.BoundingSphereCenter = y.BoundingSphereCenter ∧
    x.BoundingSphereRadius = y.BoundingSphereRadius ∧
    x.SplatStartIndex = y.SplatStartIndex ∧ x.SplatCount = y.SplatCount ∧
    x.MaxError = y.MaxError := by
  cases x
  cases y
  simp only [StripLOD, FGaussianCluster.mk.injEq] at h
  obtain ⟨h1, h2, h3, h4, h5, h6, h7, h8, h9, h10, h11, -, -⟩ := h
  exact ⟨h1, h2, h3, h4, h7, h8, h9, h10, h11⟩

/-- Pointwise consequences of equal `StripLOD`-images. -/
theorem mapStrip_pointwise {l1 l2 : List FGaussianCluster}
    (hm : l1.map StripLOD = l2.map StripLOD) :
    l1.length = l2.length ∧
    ∀ (i : ℕ) (h1 : i < l1.length) (h2 : i < l2.length),
      StripLOD (l1[i]) = StripLOD (l2[i]) := by
  constructor
  · have := congrArg List.length hm
    simpa using this
  · intro i h1 h2
    have h := congrArg (fun l => l[i]?) hm
    simp only [List.getElem?_map] at h
    rw [List.getElem?_eq_getElem h1, List.getElem?_eq_getElem h2] at h
    simpa using h

/-- Congruence for the error term: it only reads ID-lookup results and
fields that `StripLOD` keeps. -/
theorem ErrTermFold_congr (p q : FGaussianCluster) (l1 l2 : List FGaussianCluster)
    (hchild : p.ChildClusterIDs = q.ChildClusterIDs)
    (hcenter : p.BoundingSphereCenter = q.BoundingSphereCenter)
    (hid1 : ∀ (i : ℕ) (h : i < l1.length), (l1[i]).ClusterID = i)
    (hid2 : ∀ (i : ℕ) (h : i < l2.length), (l2[i]).ClusterID = i)
    (hlen : l1.length = l2.length)
    (hstrip : ∀ (i : ℕ) (h1 : i < l1.length) (h2 : i < l2.length),
      StripLOD (l1[i]) = StripLOD (l2[i])) :
    ErrTermFold p l1 = ErrTermFold q l2 := by
  unfold ErrTermFold
  rw [hchild]
  apply foldl_congr_mem
  intro acc cid _
  rw [find?_byID l1 cid hid1, find?_byID l2 cid hid2]
  rcases lt_or_ge cid l1.length with hlt | hge
  · have hlt2 : cid < l2.length := by omega
    rw [List.getElem?_eq_getElem hlt, List.getElem?_eq_getElem hlt2]
    obtain ⟨-, -, -, -, hc5, hc6, -, -, hc9⟩ := StripLOD_eq_fields (hstrip cid hlt hlt2)
    show max acc (Vec3.dist p.BoundingSphereCenter (l1[cid]).BoundingSphereCenter +
        (l1[cid]).BoundingSphereRadius + (l1[cid]).MaxError) =
      max acc (Vec3.dist q.BoundingSphereCenter (l2[cid]).BoundingSphereCenter +
        (l2[cid]).BoundingSphereRadius + (l2[cid]).MaxError)
    rw [hcenter, hc5, hc6, hc9]
  · have hge2 : l2.length ≤ cid := by omega
    rw [List.getElem?_eq_none hge, List.getElem?_eq_none hge2]

/-- Description of a successful build: the returned flag, splat array
and every hierarchy component, with the cluster array given up to the
LOD-range fields by the error-pass output. -/
theorem Build_final_desc (splats : List FGaussianSplatData) (settings : FBuildSettings)
    (prior : FGaussianClusterHierarchy) (hz : ¬splats.length = 0) :
    ∃ (splats' : List FGaussianSplatData) (R : List FGaussianCluster),
      splats'.length = splats.length ∧
      R = CalculateAllErrors (BuildLevels splats.length
            (CreateLeafClusters splats' settings.SplatsPerCluster)
            settings.MaxChildrenPerCluster 0
            (CreateLeafClusters splats' settings.SplatsPerCluster).length
            (CreateLeafClusters splats' settings.SplatsPerCluster)).1 ∧
      (BuildClusterHierarchy splats settings prior).1 = true ∧
      (BuildClusterHierarchy splats settings prior).2.1 = splats' ∧
      (BuildClusterHierarchy splats settings prior).2.2.Clusters.map StripLOD =
        R.map StripLOD ∧
      (BuildClusterHierarchy splats settings prior).2.2.NumLeafClusters =
        (CreateLeafClusters splats' settings.SplatsPerCluster).length ∧
      (BuildClusterHierarchy splats settings prior).2.2.NumLODLevels =
        (BuildLevels splats.length
          (CreateLeafClusters splats' settings.SplatsPerCluster)
          settings.MaxChildrenPerCluster 0
          (CreateLeafClusters splats' settings.SplatsPerCluster).length
          (CreateLeafClusters splats' settings.SplatsPerCluster)).2 + 1 ∧
      (BuildClusterHierarchy splats settings prior).2.2.RootClusterIndex =
        uint32OfInt ((R.length : ℤ) - 1) ∧
      (BuildClusterHierarchy splats settings prior).2.2.TotalSplatCount = splats.length := by
  refine ⟨(SortSplatsByMortonCode splats (CalculateGlobalBounds splats).1
      (CalculateGlobalBounds splats).2 settings.bReorderSplats).1, _,
    SortSplatsByMortonCode_length splats _ _ _, rfl, ?_⟩
  have hBuild : BuildClusterHierarchy splats settings prior =
      (true,
       (SortSplatsByMortonCode splats (CalculateGlobalBounds splats).1
         (CalculateGlobalBounds splats).2 settings.bReorderSplats).1,
       (fun (splats' : List FGaussianSplatData) =>
         (fun (R : List FGaussianCluster) (numLOD : ℕ) =>
           (fun (h3 : FGaussianClusterHierarchy) =>
             if settings.bGenerateLOD ∧ 1 < h3.NumLODLevels then
               GenerateLODSplats splats' h3 settings.LODReduction
             else h3)
           { Clusters := R, NumLODLevels := numLOD,
             SplatsPerCluster := uint32OfInt settings.SplatsPerCluster,
             RootClusterIndex := uint32OfInt ((R.length : ℤ) - 1),
             NumLeafClusters := (CreateLeafClusters splats'
               settings.SplatsPerCluster).length,
             TotalSplatCount := splats.length,
             LODSplats := [], TotalLODSplatCount := 0 })
         (CalculateAllErrors (BuildLevels splats.length
           (CreateLeafClusters splats' settings.SplatsPerCluster)
           settings.MaxChildrenPerCluster 0
           (CreateLeafClusters splats' settings.SplatsPerCluster).length
           (CreateLeafClusters splats' settings.SplatsPerCluster)).1)
         ((BuildLevels splats.length
           (CreateLeafClusters splats' settings.SplatsPerCluster)
           settings.MaxChildrenPerCluster 0
           (CreateLeafClusters splats' settings.SplatsPerCluster).length
           (CreateLeafClusters splats' settings.SplatsPerCluster)).2 + 1))
       (SortSplatsByMortonCode splats (CalculateGlobalBounds splats).1
         (CalculateGlobalBounds splats).2 settings.bReorderSplats).1) := by
    unfold BuildClusterHierarchy
    rw [if_neg hz]
    rfl
  rw [hBuild]
  by_cases hgen : settings.bGenerateLOD = true ∧ 1 < (BuildLevels splats.length
      (CreateLeafClusters (SortSplatsByMortonCode splats (CalculateGlobalBounds splats).1
        (CalculateGlobalBounds splats).2 settings.bReorderSplats).1
        settings.SplatsPerCluster)
      settings.MaxChildrenPerCluster 0
      (CreateLeafClusters (SortSplatsByMortonCode splats (CalculateGlobalBounds splats).1
        (CalculateGlobalBounds splats).2 settings.bReorderSplats).1
        settings.SplatsPerCluster).length
      (CreateLeafClusters (SortSplatsByMortonCode splats (CalculateGlobalBounds splats).1
        (CalculateGlobalBounds splats).2 settings.bReorderSplats).1
        settings.SplatsPerCluster)).2 + 1
  · show _ ∧ _ ∧ _ ∧ _ ∧ _ ∧ _ ∧ _
    refine ⟨rfl, rfl, ?_, ?_, ?_, ?_, ?_⟩ <;>
    · show _
      simp only []
      rw [if_pos hgen]
      first
      | exact (GenerateLODSplats_strip _ _ _).1
      | exact (GenerateLODSplats_strip _ _ _).2.2.2.2.1
      | exact (GenerateLODSplats_strip _ _ _).2.1
      | exact (GenerateLODSplats_strip _ _ _).2.2.2.1
      | exact (GenerateLODSplats_strip _ _ _).2.2.2.2.2
  · show _ ∧ _ ∧ _ ∧ _ ∧ _ ∧ _ ∧ _
    refine ⟨rfl, rfl, ?_, ?_, ?_, ?_, ?_⟩ <;>
    · simp only []
      rw [if_neg hgen]

/-- Bundle of facts about the cluster array produced by the level loop
followed by the error pass. -/
theorem R_facts (splats' : List FGaussianSplatData) (k m : ℤ) (fuel : ℕ)
    (R : List FGaussianCluster)
    (h1 : 1 ≤ splats'.length) (h2 : splats'.length ≤ 4294967296)
    (hR : R = CalculateAllErrors (BuildLevels fuel (CreateLeafClusters splats' k) m 0
      (CreateLeafClusters splats' k).length (CreateLeafClusters splats' k)).1) :
    (∀ (i : ℕ) (h : i < R.length), (R[i]).ClusterID = i) ∧
    (∀ c ∈ R, ∀ cid ∈ c.ChildClusterIDs, cid < c.ClusterID) ∧
    (∀ c ∈ R, 0 ≤ c.MaxError) ∧
    (∀ c ∈ R, c.ChildClusterIDs ≠ [] →
      c.SplatCount = (c.ChildClusterIDs.map (fun cid => SplatCountAt R cid)).sum ∧
      (∀ cid ∈ c.ChildClusterIDs, c.SplatStartIndex ≤ SplatStartAt R cid) ∧
      (∃ cid ∈ c.ChildClusterIDs, SplatStartAt R cid = c.SplatStartIndex)) ∧
    (∀ (i : ℕ) (h : i < R.length), (R[i]).ChildClusterIDs ≠ [] →
      (R[i]).MaxError = ErrorFormula (R[i]) R) := by
  obtain ⟨cur', nid', hinv⟩ := BuildLevels_inv splats'.length m h2 fuel
    (CreateLeafClusters splats' k) 0 (CreateLeafClusters splats' k).length
    (CreateLeafClusters splats' k) (BuildInv_init splats' k h1 h2)
  subst hR
  set A := (BuildLevels fuel (CreateLeafClusters splats' k) m 0
    (CreateLeafClusters splats' k).length (CreateLeafClusters splats' k)).1 with hA
  have hid := hinv.idIdx
  have hchild := hinv.childLt
  have hlenR : (CalculateAllErrors A).length = A.length := CalcUpTo_length A A.length
  have hstripR : ∀ (i : ℕ) (hi : i < (CalculateAllErrors A).length) (hi' : i < A.length),
      StripErr ((CalculateAllErrors A)[i]) = StripErr (A[i]) := by
    intro i hi hi'
    exact CalcUpTo_strip_getElem A A.length i hi hi'
  have hRA : ∀ (cid : ℕ), cid < A.length →
      SplatCountAt (CalculateAllErrors A) cid = SplatCountAt A cid ∧
      SplatStartAt (CalculateAllErrors A) cid = SplatStartAt A cid := by
    intro cid hcid
    have hcid2 : cid < (CalculateAllErrors A).length := by rw [hlenR]; exact hcid
    obtain ⟨-, -, -, -, hcnt, hst⟩ := StripErr_eq_fields (hstripR cid hcid2 hcid)
    unfold SplatCountAt SplatStartAt
    rw [List.getElem?_eq_getElem hcid2, List.getElem?_eq_getElem hcid]
    exact ⟨by simp [hcnt], by simp [hst]⟩
  refine ⟨CalcUpTo_idIdx A hid A.length, ?_, CalculateAllErrors_nonneg A hinv.err0, ?_,
    CalculateAllErrors_formula A hid hchild⟩
  · intro c hc cid hcid
    obtain ⟨i, hi, rfl⟩ := List.mem_iff_getElem.mp hc
    have hi' : i < A.length := by rw [← hlenR]; exact hi
    obtain ⟨hcID, hcCh, -, -, -, -⟩ := StripErr_eq_fields (hstripR i hi hi')
    rw [hcCh] at hcid
    rw [hcID]
    exact hchild (A[i]) (List.getElem_mem hi') cid hcid
  · intro c hc hne
    obtain ⟨i, hi, rfl⟩ := List.mem_iff_getElem.mp hc
    have hi' : i < A.length := by rw [← hlenR]; exact hi
    obtain ⟨hcID, hcCh, -, -, hcCnt, hcSt⟩ := StripErr_eq_fields (hstripR i hi hi')
    have hneA : (A[i]).ChildClusterIDs ≠ [] := by rw [← hcCh]; exact hne
    obtain ⟨hsum, hmin, hex⟩ := hinv.agg (A[i]) (List.getElem_mem hi') hneA
    have hcidlt : ∀ cid ∈ (A[i]).ChildClusterIDs, cid < A.length := by
      intro cid hcid
      have := hchild (A[i]) (List.getElem_mem hi') cid hcid
      have h2 := hid i hi'
      omega
    refine ⟨?_, ?_, ?_⟩
    · rw [hcCnt, hcCh, hsum]
      congr 1
      apply List.map_congr_left
      intro cid hcid
      exact ((hRA cid (hcidlt cid hcid)).1).symm
    · intro cid hcid
      rw [hcCh] at hcid
      rw [hcSt, (hRA cid (hcidlt cid hcid)).2]
      exact hmin cid hcid
    · obtain ⟨cid, hcid, hcideq⟩ := hex
      refine ⟨cid, by rw [hcCh]; exact hcid, ?_⟩
      rw [(hRA cid (hcidlt cid hcid)).2, hcSt]
      exact hcideq

/-- Claim C8: for an empty input array, `BuildClusterHierarchy` returns
false and the output hierarchy is exactly the reset (empty) state: no
clusters, no LOD splats, zeroed counts and an invalid root index —
never partially populated. -/
theorem C8_empty_input (settings : FBuildSettings) (prior : FGaussianClusterHierarchy) :
    (BuildClusterHierarchy [] settings prior).1 = false ∧
    (BuildClusterHierarchy [] settings prior).2.2 = prior.Reset ∧
    (BuildClusterHierarchy [] settings prior).2.2.Clusters = [] ∧
    (BuildClusterHierarchy [] settings prior).2.2.LODSplats = [] ∧
    (BuildClusterHierarchy [] settings prior).2.2.NumLODLevels = 0 ∧
    (BuildClusterHierarchy [] settings prior).2.2.NumLeafClusters = 0 ∧
    (BuildClusterHierarchy [] settings prior).2.2.TotalSplatCount = 0 ∧
    (BuildClusterHierarchy [] settings prior).2.2.TotalLODSplatCount = 0 ∧
    (BuildClusterHierarchy [] settings prior).2.2.RootClusterIndex = InvalidClusterID :=
  ⟨rfl, rfl, rfl, rfl, rfl, rfl, rfl, rfl, rfl⟩

/-- Claim C10: a LOD reduction ratio below 1 (zero or negative) is
silently replaced by the default 4 — not rejected, not clamped to 1 —
and the generation produces exactly the output of ratio 4. -/
theorem C10_lod_ratio_default (splats : List FGaussianSplatData)
    (hier : FGaussianClusterHierarchy) (ratioIn : ℤ) (h : ratioIn < 1) :
    GenerateLODSplats splats hier ratioIn = GenerateLODSplats splats hier 4 := by
  unfold GenerateLODSplats
  rw [if_pos h, if_neg (by omega : ¬(4 : ℤ) < 1)]

/-- Witness for C10 at ratio 0 on a tiny hierarchy. -/
theorem C10_lod_ratio_default_witness :
    (0 : ℤ) < 1 ∧ GenerateLODSplats [] {} 0 = GenerateLODSplats [] {} 4 :=
  ⟨by decide, C10_lod_ratio_default [] {} 0 (by decide)⟩

/-- Claim C2 (amended): in every built hierarchy every cluster's
`MaxError` is nonnegative.  (The claimed root-ward monotonicity is
refuted by `C2_monotonicity_cex`.)  The bound on the splat count is the
`TArray` capacity (`int32` element count), which every feasible input
satisfies. -/
theorem C2_maxError_nonneg (splats : List FGaussianSplatData) (settings : FBuildSettings)
    (prior : FGaussianClusterHierarchy) (hN2 : splats.length ≤ 4294967296) :
    ∀ c ∈ (BuildClusterHierarchy splats settings prior).2.2.Clusters, 0 ≤ c.MaxError := by
  by_cases hz : splats.length = 0
  · have hnil : splats = [] := List.length_eq_zero.mp hz
    subst hnil
    intro c hc
    have : (BuildClusterHierarchy [] settings prior).2.2.Clusters = [] := rfl
    rw [this] at hc
    simp at hc
  · obtain ⟨splats', R, hlen', hRdef, -, -, hstrip, -, -, -, -⟩ :=
      Build_final_desc splats settings prior hz
    obtain ⟨hidR, hchR, hnnR, haggR, hformR⟩ :=
      R_facts splats' settings.SplatsPerCluster settings.MaxChildrenPerCluster
        splats.length R (by omega) (by omega) hRdef
    intro c hc
    obtain ⟨i, hi, rfl⟩ := List.mem_iff_getElem.mp hc
    obtain ⟨hlenEq, hptw⟩ := mapStrip_pointwise hstrip
    have hi' : i < R.length := by omega
    obtain ⟨-, -, -, -, -, -, -, -, hErr⟩ := StripLOD_eq_fields (hptw i hi hi')
    rw [hErr]
    exact hnnR (R[i]) (List.getElem_mem hi')

/-- Claim C9: in every built hierarchy the cluster at index `i` of the
output array has `ClusterID = i` (leaves get 0..NumLeafClusters-1 in
order, parents continue sequentially), and looking a cluster up by ID
(`FindClusterByID`, first match of a linear scan) is exactly indexing
the array with the ID. -/
theorem C9_id_index (splats : List FGaussianSplatData) (settings : FBuildSettings)
    (prior : FGaussianClusterHierarchy) (hN2 : splats.length ≤ 4294967296) :
    (∀ (i : ℕ) (h : i < (BuildClusterHierarchy splats settings prior).2.2.Clusters.length),
      (((BuildClusterHierarchy splats settings prior).2.2.Clusters)[i]).ClusterID = i) ∧
    (∀ cid : ℕ, ((BuildClusterHierarchy splats settings prior).2.2).FindClusterByID cid =
      ((BuildClusterHierarchy splats settings prior).2.2.Clusters)[cid]?) := by
  by_cases hz : splats.length = 0
  · have hnil : splats = [] := List.length_eq_zero.mp hz
    subst hnil
    have hcl : (BuildClusterHierarchy [] settings prior).2.2.Clusters = [] := rfl
    constructor
    · intro i h
      rw [hcl] at h
      simp at h
    · intro cid
      unfold FGaussianClusterHierarchy.FindClusterByID
      rw [hcl]
      simp
  · obtain ⟨splats', R, hlen', hRdef, -, -, hstrip, -, -, -, -⟩ :=
      Build_final_desc splats settings prior hz
    obtain ⟨hidR, hchR, hnnR, haggR, hformR⟩ :=
      R_facts splats' settings.SplatsPerCluster settings.MaxChildrenPerCluster
        splats.length R (by omega) (by omega) hRdef
    obtain ⟨hlenEq, hptw⟩ := mapStrip_pointwise hstrip
    have hidC : ∀ (i : ℕ)
        (h : i < (BuildClusterHierarchy splats settings prior).2.2.Clusters.length),
        (((BuildClusterHierarchy splats settings prior).2.2.Clusters)[i]).ClusterID = i := by
      intro i h
      have hi' : i < R.length := by omega
      rw [(StripLOD_eq_fields (hptw i h hi')).1]
      exact hidR i hi'
    refine ⟨hidC, ?_⟩
    intro cid
    exact find?_byID _ cid hidC

/-- Claim C5: in every built hierarchy, every non-leaf cluster's
`SplatCount` is the sum of its children's stored `SplatCount`s and its
`SplatStartIndex` is the minimum of its children's stored
`SplatStartIndex`es (children addressed by ID, which indexes the
array). -/
theorem C5_aggregation (splats : List FGaussianSplatData) (settings : FBuildSettings)
    (prior : FGaussianClusterHierarchy) (hN2 : splats.length ≤ 4294967296) :
    ∀ p ∈ (BuildClusterHierarchy splats settings prior).2.2.Clusters,
      p.ChildClusterIDs ≠ [] →
      p.SplatCount = (p.ChildClusterIDs.map (fun cid =>
        SplatCountAt (BuildClusterHierarchy splats settings prior).2.2.Clusters cid)).sum ∧
      (∀ cid ∈ p.ChildClusterIDs, p.SplatStartIndex ≤
        SplatStartAt (BuildClusterHierarchy splats settings prior).2.2.Clusters cid) ∧
      (∃ cid ∈ p.ChildClusterIDs, SplatStartAt
        (BuildClusterHierarchy splats settings prior).2.2.Clusters cid =
          p.SplatStartIndex) := by
  by_cases hz : splats.length = 0
  · have hnil : splats = [] := List.length_eq_zero.mp hz
    subst hnil
    intro p hp
    have : (BuildClusterHierarchy [] settings prior).2.2.Clusters = [] := rfl
    rw [this] at hp
    simp at hp
  · obtain ⟨splats', R, hlen', hRdef, -, -, hstrip, -, -, -, -⟩ :=
      Build_final_desc splats settings prior hz
    obtain ⟨hidR, hchR, hnnR, haggR, hformR⟩ :=
      R_facts splats' settings.SplatsPerCluster settings.MaxChildrenPerCluster
        splats.length R (by omega) (by omega) hRdef
    obtain ⟨hlenEq, hptw⟩ := mapStrip_pointwise hstrip
    have hCR : ∀ (cid : ℕ), cid < R.length →
        SplatCountAt (BuildClusterHierarchy splats settings prior).2.2.Clusters cid =
          SplatCountAt R cid ∧
        SplatStartAt (BuildClusterHierarchy splats settings prior).2.2.Clusters cid =
          SplatStartAt R cid := by
      intro cid hcid
      have hcid2 : cid <
          (BuildClusterHierarchy splats settings prior).2.2.Clusters.length := by omega
      obtain ⟨-, -, -, -, -, -, hst, hcnt, -⟩ := StripLOD_eq_fields (hptw cid hcid2 hcid)
      unfold SplatCountAt SplatStartAt
      rw [List.getElem?_eq_getElem hcid, List.getElem?_eq_getElem hcid2]
      exact ⟨by simp [hcnt], by simp [hst]⟩
    intro p hp hne
    obtain ⟨i, hi, rfl⟩ := List.mem_iff_getElem.mp hp
    have hi' : i < R.length := by omega
    obtain ⟨hf1, -, hf3, -, -, -, hf7, hf8, -⟩ := StripLOD_eq_fields (hptw i hi hi')
    have hneR : (R[i]).ChildClusterIDs ≠ [] := by rw [← hf3]; exact hne
    obtain ⟨hsum, hmin, hex⟩ := haggR (R[i]) (List.getElem_mem hi') hneR
    have hcidlt : ∀ cid ∈ (R[i]).ChildClusterIDs, cid < R.length := by
      intro cid hcid
      have := hchR (R[i]) (List.getElem_mem hi') cid hcid
      have h2 := hidR i hi'
      omega
    refine ⟨?_, ?_, ?_⟩
    · rw [hf8, hf3, hsum]
      congr 1
      apply List.map_congr_left
      intro cid hcid
      exact ((hCR cid (hcidlt cid hcid)).1).symm
    · intro cid hcid
      rw [hf3] at hcid
      rw [hf7, (hCR cid (hcidlt cid hcid)).2]
      exact hmin cid hcid
    · obtain ⟨cid, hcid, hcideq⟩ := hex
      refine ⟨cid, by rw [hf3]; exact hcid, ?_⟩
      rw [(hCR cid (hcidlt cid hcid)).2, hf7]
      exact hcideq

/-- Claim C1: in every built hierarchy, every non-leaf cluster's stored
`MaxError` equals the maximum over its children `c` of (distance from
the parent's bounding-sphere center to `c`'s center + `c`'s radius +
`c`'s `MaxError`), minus the parent's radius, floored at 0 — evaluated
on the FINAL cluster values (`ErrorFormula`), which captures that the
error pass visits children (lower indices) before parents, so every
child's `MaxError` it reads is already final. -/
theorem C1_maxError_formula (splats : List FGaussianSplatData) (settings : FBuildSettings)
    (prior : FGaussianClusterHierarchy) (hN2 : splats.length ≤ 4294967296) :
    ∀ p ∈ (BuildClusterHierarchy splats settings prior).2.2.Clusters,
      p.ChildClusterIDs ≠ [] →
      p.MaxError = ErrorFormula p (BuildClusterHierarchy splats settings prior).2.2.Clusters := by
  by_cases hz : splats.length = 0
  · have hnil : splats = [] := List.length_eq_zero.mp hz
    subst hnil
    intro p hp
    have : (BuildClusterHierarchy [] settings prior).2.2.Clusters = [] := rfl
    rw [this] at hp
    simp at hp
  · obtain ⟨splats', R, hlen', hRdef, -, -, hstrip, -, -, -, -⟩ :=
      Build_final_desc splats settings prior hz
    obtain ⟨hidR, hchR, hnnR, haggR, hformR⟩ :=
      R_facts splats' settings.SplatsPerCluster settings.MaxChildrenPerCluster
        splats.length R (by omega) (by omega) hRdef
    obtain ⟨hlenEq, hptw⟩ := mapStrip_pointwise hstrip
    have hidC : ∀ (i : ℕ)
        (h : i < (BuildClusterHierarchy splats settings prior).2.2.Clusters.length),
        (((BuildClusterHierarchy splats settings prior).2.2.Clusters)[i]).ClusterID = i := by
      intro i h
      have hi' : i < R.length := by omega
      rw [(StripLOD_eq_fields (hptw i h hi')).1]
      exact hidR i hi'
    intro p hp hne
    obtain ⟨i, hi, rfl⟩ := List.mem_iff_getElem.mp hp
    have hi' : i < R.length := by omega
    obtain ⟨-, -, hf3, -, hf5, hf6, -, -, hf9⟩ := StripLOD_eq_fields (hptw i hi hi')
    have hneR : (R[i]).ChildClusterIDs ≠ [] := by rw [← hf3]; exact hne
    have hformula := hformR i hi' hneR
    rw [hf9, hformula]
    unfold ErrorFormula
    rw [hf6]
    congr 1
    congr 1
    exact ErrTermFold_congr (R[i])
      (((BuildClusterHierarchy splats settings prior).2.2.Clusters)[i]) R
      (BuildClusterHierarchy splats settings prior).2.2.Clusters
      hf3.symm hf5.symm hidR hidC hlenEq.symm
      (fun j h1 h2 => (hptw j h2 h1).symm)

/-! Small helpers for the remaining claims: length preservation of the
parent-pointer sync, vector and clamp identities, and the concrete
inputs of the counterexamples and witnesses. -/

theorem setFirstParentID_length (l : List FGaussianCluster) (cid pid : ℕ) :
    (setFirstParentID l cid pid).length = l.length := by
  induction l with
  | nil => rfl
  | cons c rest ih =>
    simp only [setFirstParentID]
    split
    · simp
    · simp [ih]

theorem updateParentIDs_length (acc upd : List FGaussianCluster) :
    (updateParentIDs acc upd).length = acc.length := by
  unfold updateParentIDs
  induction upd generalizing acc with
  | nil => rfl
  | cons u us ih =>
    simp only [List.foldl_cons]
    rw [ih (setFirstParentID acc u.ClusterID u.ParentClusterID)]
    exact setFirstParentID_length acc u.ClusterID u.ParentClusterID

theorem Vec3_zero_add (v : Vec3) : Vec3.add Vec3.zero v = v := by
  cases v
  simp [Vec3.add, Vec3.zero]

theorem Vec3_mulS_one (v : Vec3) : Vec3.mulS v 1 = v := by
  cases v
  simp [Vec3.mulS]

theorem clampQ_idem (v : ℚ) : clampQ (clampQ v 0 1) 0 1 = clampQ v 0 1 := by
  unfold clampQ
  by_cases h1 : v < 0
  · simp only [if_pos h1]
    norm_num
  · by_cases h2 : v < 1
    · simp only [if_neg h1, if_pos h2]
    · simp only [if_neg h1, if_neg h2]
      norm_num

/-- Claim C3 (code bug): settings with `SplatsPerCluster < 1` are
neither rejected nor clamped to 1.  With `SplatsPerCluster = -1` and two
splats, `BuildClusterHierarchy` returns true (success) yet creates zero
leaf clusters and an empty cluster array, leaving `RootClusterIndex` at
the invalid sentinel — exactly the silently degenerate partition the
spec rules out. -/
theorem C3_invalid_settings_eval :
    (BuildClusterHierarchy pairSplats settingsBad {}).1 = true ∧
    (BuildClusterHierarchy pairSplats settingsBad {}).2.2.Clusters = [] ∧
    (BuildClusterHierarchy pairSplats settingsBad {}).2.2.NumLeafClusters = 0 ∧
    (BuildClusterHierarchy pairSplats settingsBad {}).2.2.RootClusterIndex =
      InvalidClusterID := by
  with_unfolding_all decide

/-- Claim C4 (amended): when a merge run's opacity sum is below
SMALL_NUMBER the code sets `TotalWeight := 1`, so the weights are the
raw opacities (`w_i = opacity_i`) — not the uniform `1/count` weights
the spec claims — and the merged position is `Σ opacity_i · position_i`
(the zero vector for an all-transparent run, not the centroid). -/
theorem C4_zero_opacity_weights (splats : List FGaussianSplatData) (startIndex count : ℤ)
    (hc : 0 < count) (hs : 0 ≤ startIndex) (hlt : startIndex < (splats.length : ℤ))
    (hw : ((splats.drop startIndex.toNat).take
        (min count ((splats.length : ℤ) - startIndex)).toNat).foldl
        (fun acc sp => acc + sp.Opacity) 0 < smallNumber) :
    (MergeGaussians splats startIndex count).Position =
      ((splats.drop startIndex.toNat).take
        (min count ((splats.length : ℤ) - startIndex)).toNat).foldl
        (fun acc sp => Vec3.add acc (Vec3.mulS sp.Position sp.Opacity)) Vec3.zero := by
  unfold MergeGaussians
  rw [if_neg (by omega : ¬(count ≤ 0 ∨ startIndex < 0 ∨ (splats.length : ℤ) ≤ startIndex))]
  dsimp only
  rw [if_pos hw]
  apply foldl_congr_mem
  intro acc sp _
  rw [div_one]

/-- Counterexample to claim C4 as stated: an all-transparent run of two
splats at x=1 and x=3 merges to the zero vector, not to their centroid
(2,0,0). -/
theorem C4_zero_opacity_cex :
    (MergeGaussians [{ Position := ⟨1, 0, 0⟩, Opacity := 0 },
      { Position := ⟨3, 0, 0⟩, Opacity := 0 }] 0 2).Position = ⟨0, 0, 0⟩ ∧
    Vec3.mulS (Vec3.add ⟨1, 0, 0⟩ ⟨3, 0, 0⟩) (1 / 2) = ⟨2, 0, 0⟩ ∧
    (⟨0, 0, 0⟩ : Vec3) ≠ ⟨2, 0, 0⟩ := by
  refine ⟨?_, ?_, ?_⟩ <;> with_unfolding_all decide

/-- Witness for C4 (amended) on a single zero-opacity splat. -/
theorem C4_zero_opacity_weights_witness :
    (0 : ℤ) < 1 ∧ (0 : ℤ) ≤ 0 ∧ (0 : ℤ) < (zeroSplatList.length : ℤ) ∧
    ((zeroSplatList.drop (0 : ℤ).toNat).take
        (min 1 ((zeroSplatList.length : ℤ) - 0)).toNat).foldl
        (fun acc sp => acc + sp.Opacity) 0 < smallNumber ∧
    (MergeGaussians zeroSplatList 0 1).Position =
      ((zeroSplatList.drop (0 : ℤ).toNat).take
        (min 1 ((zeroSplatList.length : ℤ) - 0)).toNat).foldl
        (fun acc sp => Vec3.add acc (Vec3.mulS sp.Position sp.Opacity)) Vec3.zero :=
  ⟨by decide, by decide, by decide, by with_unfolding_all decide,
    C4_zero_opacity_weights zeroSplatList 0 1 (by decide) (by decide) (by decide)
      (by with_unfolding_all decide)⟩

/-- Claim C7 (amended): merging a run of count = 1 reproduces the
splat's position and (clamped) opacity PROVIDED the splat's opacity is
at least SMALL_NUMBER; below that the fallback `TotalWeight := 1` makes
the single weight `opacity`, not 1, and the position is scaled away
(see the counterexample). -/
theorem C7_merge_identity_amended (splats : List FGaussianSplatData) (i : ℤ)
    (sp : FGaussianSplatData) (hs : 0 ≤ i) (hlt : i < (splats.length : ℤ))
    (hsp : splats[i.toNat]? = some sp) (hop : smallNumber ≤ sp.Opacity) :
    (MergeGaussians splats i 1).Position = sp.Position ∧
    (MergeGaussians splats i 1).Opacity = clampQ sp.Opacity 0 1 := by
  have hrun : (splats.drop i.toNat).take (min 1 ((splats.length : ℤ) - i)).toNat = [sp] := by
    have h1 : min (1 : ℤ) ((splats.length : ℤ) - i) = 1 := by omega
    rw [h1]
    have h0 : (splats.drop i.toNat)[0]? = some sp := by
      rw [List.getElem?_drop]
      simpa using hsp
    cases hD : splats.drop i.toNat with
    | nil => rw [hD] at h0; simp at h0
    | cons a t =>
      rw [hD] at h0
      simp only [List.getElem?_cons_zero, Option.some.injEq] at h0
      rw [h0]
      rfl
  have hpos : (0 : ℚ) < sp.Opacity := by
    have : (0 : ℚ) < smallNumber := by norm_num [smallNumber]
    linarith
  have hne : sp.Opacity ≠ 0 := ne_of_gt hpos
  unfold MergeGaussians
  rw [if_neg (by omega : ¬((1 : ℤ) ≤ 0 ∨ i < 0 ∨ (splats.length : ℤ) ≤ i))]
  dsimp only
  rw [hrun]
  simp only [List.foldl_cons, List.foldl_nil, zero_add]
  rw [if_neg (not_lt.mpr hop)]
  constructor
  · show Vec3.add Vec3.zero (Vec3.mulS sp.Position (sp.Opacity / sp.Opacity)) = sp.Position
    rw [div_self hne, Vec3_mulS_one, Vec3_zero_add]
  · show clampQ (1 - 1 * (1 - clampQ sp.Opacity 0 1)) 0 1 = clampQ sp.Opacity 0 1
    have harith : 1 - 1 * (1 - clampQ sp.Opacity 0 1) = clampQ sp.Opacity 0 1 := by ring
    rw [harith, clampQ_idem]

/-- Counterexample to claim C7 as stated: merging the single splat at
(1,0,0) with opacity 0 yields position (0,0,0), not the splat's
position. -/
theorem C7_merge_identity_cex :
    (MergeGaussians [{ Position := ⟨1, 0, 0⟩, Opacity := 0 }] 0 1).Position = ⟨0, 0, 0⟩ ∧
    ({ Position := ⟨1, 0, 0⟩, Opacity := 0 } : FGaussianSplatData).Position ≠ ⟨0, 0, 0⟩ := by
  refine ⟨?_, ?_⟩ <;> with_unfolding_all decide

/-- Witness for C7 (amended) on a single splat of opacity 1/2. -/
theorem C7_merge_identity_amended_witness :
    (0 : ℤ) ≤ 0 ∧ (0 : ℤ) < (halfSplatList.length : ℤ) ∧
    halfSplatList[(0 : ℤ).toNat]? =
      some { Position := ⟨1, 2, 3⟩, Opacity := 1 / 2 } ∧
    smallNumber ≤ ({ Position := ⟨1, 2, 3⟩, Opacity := 1 / 2 } : FGaussianSplatData).Opacity ∧
    (MergeGaussians halfSplatList 0 1).Position =
      ({ Position := ⟨1, 2, 3⟩, Opacity := 1 / 2 } : FGaussianSplatData).Position ∧
    (MergeGaussians halfSplatList 0 1).Opacity =
      clampQ ({ Position := ⟨1, 2, 3⟩, Opacity := 1 / 2 } : FGaussianSplatData).Opacity 0 1 := by
  refine ⟨by decide, by decide, by with_unfolding_all decide,
    by with_unfolding_all decide, ?_, ?_⟩
  · exact (C7_merge_identity_amended halfSplatList 0 _ (by decide) (by decide)
      (by with_unfolding_all decide) (by with_unfolding_all decide)).1
  · exact (C7_merge_identity_amended halfSplatList 0 _ (by decide) (by decide)
      (by with_unfolding_all decide) (by with_unfolding_all decide)).2

set_option maxRecDepth 4000 in
/-- Claim C6: for any 1000-splat input with SplatsPerCluster = 128 and
MaxChildrenPerCluster = 8, the build creates ceil(1000/128) = 8 leaf
clusters, one parent level of ceil(8/8) = 1 cluster directly above the
leaves (the root, at index 8, with the eight leaves as children), and
NumLODLevels = 2. -/
theorem C6_scenarioB (splats : List FGaussianSplatData) (settings : FBuildSettings)
    (prior : FGaussianClusterHierarchy) (hlen : splats.length = 1000)
    (hK : settings.SplatsPerCluster = 128) (hM : settings.MaxChildrenPerCluster = 8) :
    (BuildClusterHierarchy splats settings prior).2.2.NumLeafClusters = 8 ∧
    (BuildClusterHierarchy splats settings prior).2.2.Clusters.length = 9 ∧
    (BuildClusterHierarchy splats settings prior).2.2.NumLODLevels = 2 ∧
    (BuildClusterHierarchy splats settings prior).2.2.RootClusterIndex = 8 ∧
    ((BuildClusterHierarchy splats settings prior).2.2.Clusters.map
      (fun c => c.ChildClusterIDs))[8]? = some [0, 1, 2, 3, 4, 5, 6, 7] := by
  have hz : ¬splats.length = 0 := by omega
  obtain ⟨splats', R, hlen', hRdef, -, -, hstrip, hLeaf, hLOD, hRoot, -⟩ :=
    Build_final_desc splats settings prior hz
  rw [hK] at hRdef hLeaf hLOD
  rw [hM] at hRdef hLOD
  set L := CreateLeafClusters splats' 128 with hL
  have hllen : L.length = 8 := by
    rw [hL, CreateLeafClusters_length, hlen', hlen]
    decide
  have hfuel : splats.length = 999 + 1 := by omega
  have hstep1 : BuildLevels splats.length L 8 0 L.length L =
      BuildLevels 999 (BuildParentLevel L 8 1 L.length).2 8 1
        (L.length + (BuildParentLevel L 8 1 L.length).2.length)
        (updateParentIDs L (BuildParentLevel L 8 1 L.length).1 ++
          (BuildParentLevel L 8 1 L.length).2) := by
    rw [hfuel]
    exact BuildLevels_succ_gt 999 L 8 0 L.length L (by omega)
  have hplen : (BuildParentLevel L 8 1 L.length).2.length = 1 := by
    rw [BuildParentLevel_parents_length, hllen]
    decide
  have hstep2 : BuildLevels 999 (BuildParentLevel L 8 1 L.length).2 8 1
        (L.length + (BuildParentLevel L 8 1 L.length).2.length)
        (updateParentIDs L (BuildParentLevel L 8 1 L.length).1 ++
          (BuildParentLevel L 8 1 L.length).2) =
      (updateParentIDs L (BuildParentLevel L 8 1 L.length).1 ++
        (BuildParentLevel L 8 1 L.length).2, 1) := by
    have h999 : (999 : ℕ) = 998 + 1 := rfl
    rw [h999]
    exact BuildLevels_succ_le 998 _ 8 1 _ _ (by omega)
  have hbl : BuildLevels splats.length L 8 0 L.length L =
      (updateParentIDs L (BuildParentLevel L 8 1 L.length).1 ++
        (BuildParentLevel L 8 1 L.length).2, 1) := hstep1.trans hstep2
  set A := updateParentIDs L (BuildParentLevel L 8 1 L.length).1 ++
    (BuildParentLevel L 8 1 L.length).2 with hAdef
  have hupdlen : (updateParentIDs L (BuildParentLevel L 8 1 L.length).1).length = 8 := by
    rw [updateParentIDs_length, hllen]
  have hAlen : A.length = 9 := by
    rw [hAdef, List.length_append, hupdlen, hplen]
  have hRA : R = CalculateAllErrors A := by rw [hRdef, hbl]
  have hRlen : R.length = 9 := by
    rw [hRA]
    exact (CalcUpTo_length A A.length).trans hAlen
  obtain ⟨hlenEq, hptw⟩ := mapStrip_pointwise hstrip
  refine ⟨?_, ?_, ?_, ?_, ?_⟩
  · rw [hLeaf, hllen]
  · omega
  · rw [hLOD, hbl]
  · rw [hRoot, hRlen]
    decide
  · have h8C : 8 < (BuildClusterHierarchy splats settings prior).2.2.Clusters.length := by
      omega
    have h8R : 8 < R.length := by omega
    have h8A : 8 < A.length := by omega
    rw [List.getElem?_map, List.getElem?_eq_getElem h8C, Option.map_some']
    have hf3 := (StripLOD_eq_fields (hptw 8 h8C h8R)).2.2.1
    have hRS : R.map StripErr = A.map StripErr := by
      rw [hRA]
      exact CalcUpTo_strip A A.length
    have h7 := congrArg (fun l => l[8]?) hRS
    simp only [List.getElem?_map] at h7
    rw [List.getElem?_eq_getElem h8R, List.getElem?_eq_getElem h8A] at h7
    have hstripErr : StripErr (R[8]) = StripErr (A[8]) := by simpa using h7
    have hchRA : (R[8]).ChildClusterIDs = (A[8]).ChildClusterIDs :=
      (StripErr_eq_fields hstripErr).2.1
    have hA8q : A[8]? = (BuildParentLevel L 8 1 L.length).2[0]? := by
      rw [hAdef, List.getElem?_append_right (by omega)]
      rw [hupdlen]
    have h01 : (0 : ℕ) < (BuildParentLevel L 8 1 L.length).2.length := by omega
    have hp0 : (BuildParentLevel L 8 1 L.length).2[0]? =
        some (MakeParentCluster ((L.drop (0 * (8 : ℤ).toNat)).take (8 : ℤ).toNat) 1
          (L.length + 0)) := by
      rw [List.getElem?_eq_getElem h01,
        BuildParentLevel_parents_getElem L 8 1 L.length 0 h01]
    have hslice : ((L.drop (0 * (8 : ℤ).toNat)).take (8 : ℤ).toNat) = L := by
      have h8t : (8 : ℤ).toNat = 8 := rfl
      rw [h8t, Nat.zero_mul, List.drop_zero, List.take_of_length_le (by omega)]
    have hids : L.map (fun c => c.ClusterID) = [0, 1, 2, 3, 4, 5, 6, 7] := by
      apply List.ext_getElem
      · rw [List.length_map, hllen]
        rfl
      · intro i h1 h2
        rw [List.getElem_map]
        have hi8 : i < L.length := by rw [List.length_map] at h1; exact h1
        have hi8' : i < (CreateLeafClusters splats' 128).length := by rw [← hL]; exact hi8
        have hgl : L[i] = (CreateLeafClusters splats' 128)[i] := rfl
        rw [hgl, CreateLeafClusters_getElem splats' 128 i hi8',
          (CalculateClusterBounds_fields _ _).1]
        have hi8n : i < 8 := by simpa using h2
        interval_cases i <;> rfl
    have hA8 : (A[8]).ChildClusterIDs = [0, 1, 2, 3, 4, 5, 6, 7] := by
      have hsome : some (A[8]) = A[8]? := (List.getElem?_eq_getElem h8A).symm
      rw [hA8q, hp0] at hsome
      have : A[8] = MakeParentCluster ((L.drop (0 * (8 : ℤ).toNat)).take (8 : ℤ).toNat) 1
          (L.length + 0) := by
        injection hsome
      rw [this, (MakeParentCluster_fields _ _ _).2.2.1, hslice, hids]
    rw [hf3, hchRA, hA8]

/-- Witness for C6 on 1000 default-constructed splats with the default
settings (their defaults are exactly 128 and 8). -/
theorem C6_scenarioB_witness :
    (List.replicate 1000 ({} : FGaussianSplatData)).length = 1000 ∧
    ({} : FBuildSettings).SplatsPerCluster = 128 ∧
    ({} : FBuildSettings).MaxChildrenPerCluster = 8 ∧
    ((BuildClusterHierarchy (List.replicate 1000 {}) {} {}).2.2.NumLeafClusters = 8 ∧
     (BuildClusterHierarchy (List.replicate 1000 {}) {} {}).2.2.Clusters.length = 9 ∧
     (BuildClusterHierarchy (List.replicate 1000 {}) {} {}).2.2.NumLODLevels = 2 ∧
     (BuildClusterHierarchy (List.replicate 1000 {}) {} {}).2.2.RootClusterIndex = 8 ∧
     ((BuildClusterHierarchy (List.replicate 1000 {}) {} {}).2.2.Clusters.map
       (fun c => c.ChildClusterIDs))[8]? = some [0, 1, 2, 3, 4, 5, 6, 7]) :=
  ⟨List.length_replicate _ _, rfl, rfl,
    C6_scenarioB (List.replicate 1000 {}) {} {} (List.length_replicate _ _) rfl rfl⟩

set_option maxRecDepth 100000

/-- Counterexample to the monotonicity half of claim C2: in the
hierarchy built from `splats6`, the root (cluster 5, `MaxError` 0) has
the child cluster 3 whose `MaxError` is 2 — a parent's error can be
strictly below its child's, because the parent's larger bounding sphere
radius is subtracted from the maximum in `CalculateClusterError`. -/
theorem C2_monotonicity_cex :
    ∃ p ∈ (BuildClusterHierarchy splats6 settings6 {}).2.2.Clusters,
      ∃ c ∈ (BuildClusterHierarchy splats6 settings6 {}).2.2.Clusters,
        c.ClusterID ∈ p.ChildClusterIDs ∧ p.MaxError < c.MaxError := by
  have h : ((BuildClusterHierarchy splats6 settings6 {}).2.2.Clusters.map
      (fun c => (c.ClusterID, c.ChildClusterIDs, c.MaxError))) =
      [(0, [], 0), (1, [], 0), (2, [], 0), (3, [0, 1], 2), (4, [2], 0), (5, [3, 4], 0)] := by
    with_unfolding_all rfl
  have h5 : ((5 : ℕ), ([3, 4] : List ℕ), (0 : ℚ)) ∈
      ((BuildClusterHierarchy splats6 settings6 {}).2.2.Clusters.map
        (fun c => (c.ClusterID, c.ChildClusterIDs, c.MaxError))) := by
    rw [h]
    simp
  have h3 : ((3 : ℕ), ([0, 1] : List ℕ), (2 : ℚ)) ∈
      ((BuildClusterHierarchy splats6 settings6 {}).2.2.Clusters.map
        (fun c => (c.ClusterID, c.ChildClusterIDs, c.MaxError))) := by
    rw [h]
    simp
  obtain ⟨p, hp, hfp⟩ := List.mem_map.mp h5
  obtain ⟨c, hc, hfc⟩ := List.mem_map.mp h3
  refine ⟨p, hp, c, hc, ?_, ?_⟩
  · have hcid : c.ClusterID = 3 := congrArg (fun t => t.1) hfc
    have hpch : p.ChildClusterIDs = [3, 4] := congrArg (fun t => t.2.1) hfp
    rw [hcid, hpch]
    simp
  · have hpe : p.MaxError = 0 := congrArg (fun t => t.2.2) hfp
    have hce : c.MaxError = 2 := congrArg (fun t => t.2.2) hfc
    rw [hpe, hce]
    norm_num

theorem tinyBuild_clusters :
    (BuildClusterHierarchy twoSplats tinySettings {}).2.2.Clusters = tinyClusters := by
  with_unfolding_all rfl

theorem tinyRoot_mem :
    tinyRoot ∈ (BuildClusterHierarchy twoSplats tinySettings {}).2.2.Clusters := by
  rw [tinyBuild_clusters]
  unfold tinyClusters
  exact List.mem_cons_of_mem _ (List.mem_cons_of_mem _ (List.mem_cons_self _ _))

theorem tinyRoot_children : tinyRoot.ChildClusterIDs ≠ [] := by
  unfold tinyRoot
  simp

/-- Witness for C2 (amended) at the root of the two-splat build. -/
theorem C2_maxError_nonneg_witness :
    twoSplats.length ≤ 4294967296 ∧ 0 ≤ tinyRoot.MaxError :=
  ⟨by decide, C2_maxError_nonneg twoSplats tinySettings {} (by decide) tinyRoot tinyRoot_mem⟩

/-- Witness for C1 at the root of the two-splat build. -/
theorem C1_maxError_formula_witness :
    twoSplats.length ≤ 4294967296 ∧
    tinyRoot.MaxError =
      ErrorFormula tinyRoot (BuildClusterHierarchy twoSplats tinySettings {}).2.2.Clusters :=
  ⟨by decide, C1_maxError_formula twoSplats tinySettings {} (by decide) tinyRoot
    tinyRoot_mem tinyRoot_children⟩

/-- Witness for C5 at the root of the two-splat build. -/
theorem C5_aggregation_witness :
    twoSplats.length ≤ 4294967296 ∧
    tinyRoot.SplatCount = (tinyRoot.ChildClusterIDs.map (fun cid =>
      SplatCountAt (BuildClusterHierarchy twoSplats tinySettings {}).2.2.Clusters cid)).sum :=
  ⟨by decide, (C5_aggregation twoSplats tinySettings {} (by decide) tinyRoot
    tinyRoot_mem tinyRoot_children).1⟩

/-- Witness for C9 on the two-splat build at ID 0. -/
theorem C9_id_index_witness :
    twoSplats.length ≤ 4294967296 ∧
    ((BuildClusterHierarchy twoSplats tinySettings {}).2.2).FindClusterByID 0 =
      ((BuildClusterHierarchy twoSplats tinySettings {}).2.2.Clusters)[0]? :=
  ⟨by decide, (C9_id_index twoSplats tinySettings {} (by decide)).2 0⟩
